import Mathlib

/-!
# Verification development for `refl` (package `refl`, file `tag.go`)

A shallow embedding of the tag utilities of the repository:

* `WalkTaggedFields` / `HasTaggedFields` (the field walker),
* `FindTaggedName` / `Tagged` (the identity resolver),
* `Read*Tag`, `JoinErrors`, `PopulateFieldsFromTags` (the typed populator).

Go's `reflect` package is embedded as far as the code uses it: a
`reflect.Value` is either the zero Value or an object together with its
address when it is addressable; a panic of the Go runtime is the `error`
case of `Except String`.
-/

deriving instance DecidableEq for Except

namespace Refl

/-! ## Struct tags -/

/-- A `reflect.StructTag`, read as the sequence of `key:"value"` pairs it holds
in the conventional format, in the order they are written. -/
abbrev StructTag := List (String × String)

/-- The method `StructTag.Lookup`: the value of the first pair with the key and
`ok = true` (`some`), or `ok = false` (`none`). -/
def StructTag.Lookup (tag : StructTag) (key : String) : Option String :=
  match tag with
  | [] => none
  | (k, v) :: rest => if k = key then some v else StructTag.Lookup rest key

/-- The method `StructTag.Get`: `v, _ := tag.Lookup(key); return v`. -/
def StructTag.Get (tag : StructTag) (key : String) : String :=
  match StructTag.Lookup tag key with
  | some v => v
  | none => ""

/-- The expression `strings.Split(tag, ",")[0]` of `WalkTaggedFields`: the text
before the first comma, the whole text when it holds none. -/
def primaryTag (tag : String) : String :=
  String.mk (tag.data.takeWhile (fun c => c ≠ ','))

/-! ## Types and values as `reflect` shows them -/

/-- The kinds of Go types other than `Ptr` and `Struct`. -/
inductive LeafKind
  | Bool | Int | Int8 | Int16 | Int32 | Int64
  | Uint | Uint8 | Uint16 | Uint32 | Uint64 | Uintptr
  | Float32 | Float64 | Complex64 | Complex128
  | Array | Chan | Func | Interface | Map | Slice | String | UnsafePointer
deriving DecidableEq, Repr

/-- A `reflect.Kind`. `Invalid` is the kind `0` of the zero Value. -/
inductive Kind
  | Invalid
  | Ptr
  | Struct
  | Other (k : LeafKind)
deriving DecidableEq, Repr

/-- A `reflect.StructField`, with the members the code can observe. `Offset` is
the offset of the field within its struct, as the compiler laid it out; the
type of the field is carried by the object stored in it. -/
structure StructField where
  Name : String
  PkgPath : String
  Tag : StructTag
  Offset : Nat
  Anonymous : Bool
deriving DecidableEq, Repr

/-- A static type, as far as the walker inspects the type of a nil pointer:
its kind, the element type of a pointer, the declared fields of a struct. -/
inductive GoType
  | leaf (k : LeafKind)
  | ptr (elem : GoType)
  | struct (fields : List StructField)
deriving DecidableEq, Repr

mutual
/-- A Go value with its dynamic type. A non-nil pointer holds the address it
points to and the object stored there; the contents of values that are neither
pointers nor structs play no role in walking. -/
inductive Obj
  | leaf (k : LeafKind)
  | nilPtr (elem : GoType)
  | ptr (addr : Nat) (target : Obj)
  | struct (fields : Fields)
/-- The fields of a struct value in declaration order, each with its descriptor. -/
inductive Fields
  | nil
  | cons (sf : StructField) (val : Obj) (rest : Fields)
end

/-- A `reflect.Value`: the zero Value, or an object with `addr = some a` exactly
when the value is addressable, `a` being what `UnsafeAddr` returns. -/
inductive Value
  | zero
  | mk (obj : Obj) (addr : Option Nat)

/-- The kind of an object. -/
def Obj.Kind : Obj → Kind
  | .leaf k => .Other k
  | .nilPtr _ => .Ptr
  | .ptr _ _ => .Ptr
  | .struct _ => .Struct

/-- The method `Value.Kind`. -/
def Value.Kind : Value → Kind
  | .zero => .Invalid
  | .mk obj _ => obj.Kind

/-- The method `Value.CanAddr`. It reports false for the zero Value. -/
def Value.CanAddr : Value → Bool
  | .zero => false
  | .mk _ addr => addr.isSome

/-- The method `Value.Elem` on a pointer: the zero Value for a nil pointer, and
otherwise the addressable value it points to. It panics on every other kind
(a `reflect.Value` obtained from `reflect.ValueOf` never has kind `Interface`). -/
def Value.Elem : Value → Except String Value
  | .zero => .error "reflect: call of reflect.Value.Elem on zero Value"
  | .mk (.nilPtr _) _ => .ok .zero
  | .mk (.ptr a target) _ => .ok (.mk target (some a))
  | .mk (.leaf _) _ => .error "reflect: call of reflect.Value.Elem on non-pointer Value"
  | .mk (.struct _) _ => .error "reflect: call of reflect.Value.Elem on struct Value"

/-- The method `Value.Addr`: a pointer value to an addressable value; it panics
when the value is not addressable. The pointer itself is not addressable. -/
def Value.Addr : Value → Except String Value
  | .mk obj (some a) => .ok (.mk (.ptr a obj) none)
  | _ => .error "reflect.Value.Addr of unaddressable value"

/-- The method `Value.UnsafeAddr`: the address of an addressable value; it
panics when the value is not addressable. -/
def Value.UnsafeAddr : Value → Except String Nat
  | .mk _ (some a) => .ok a
  | _ => .error "reflect.Value.UnsafeAddr of unaddressable value"

/-- The function `reflect.ValueOf` on an `interface{}`: `none` is the nil
interface, `some obj` an interface holding `obj`. The result is never
addressable. -/
def ValueOf : Option Obj → Value
  | none => .zero
  | some obj => .mk obj none

/-- The function `reflect.Indirect`: `v.Elem()` for a pointer, `v` otherwise. -/
def Indirect : Value → Value
  | .mk (.nilPtr _) _ => .zero
  | .mk (.ptr a target) _ => .mk target (some a)
  | v => v

/-! ## The field walker -/

/-- The callback type `WalkTaggedFieldFn`. The variables a Go closure captures
and assigns are the state `σ` it transforms; a callback may panic. -/
abbrev WalkTaggedFieldFn (σ : Type) := Value → StructField → String → σ → Except String σ

/-- The rest of `WalkTaggedFields` once `v` has become the zero Value in the loop
`for t.Kind() == reflect.Ptr`, for the static type `t` that remains:
`v.Elem()` panics when `t` is again a pointer, `v.Field(0)` panics when `t` is a
struct with a field, and nothing happens otherwise. -/
def walkZero {σ : Type} (s : σ) : GoType → Except String σ
  | .leaf _ => .ok s
  | .ptr _ => .error "reflect: call of reflect.Value.Elem on zero Value"
  | .struct [] => .ok s
  | .struct (_ :: _) => .error "reflect: call of reflect.Value.Field on zero Value"

mutual
/-- The body of `WalkTaggedFields` for a valid value holding `obj` (`addr` as in
`Value.mk`): the loop `for t.Kind() == reflect.Ptr` follows pointers (a pointer
target is addressable at the address pointed to), a non-struct ends the walk,
and a struct is walked field by field. -/
def walkObj {σ : Type} (f : WalkTaggedFieldFn σ) (tagName : String) :
    Obj → Option Nat → σ → Except String σ
  | .leaf _, _, s => .ok s
  | .nilPtr elem, _, s => walkZero s elem
  | .ptr a target, _, s => walkObj f tagName target (some a) s
  | .struct fields, addr, s => walkFields f tagName fields addr s
/-- The loop `for i := 0; i < t.NumField(); i++` over the fields from index `i`
on, for a struct value whose address is `base` when it is addressable. The
recursive call `WalkTaggedFields(fieldVal.Addr(), f, tagName)` panics in `Addr`
when the struct is not addressable, and otherwise walks the field's object at
the field's address, which is what dereferencing the new pointer yields. -/
def walkFields {σ : Type} (f : WalkTaggedFieldFn σ) (tagName : String) :
    Fields → Option Nat → σ → Except String σ
  | .nil, _, s => .ok s
  | .cons sf val rest, base, s =>
    let tag := primaryTag (sf.Tag.Get tagName)
    if sf.Anonymous then
      if tag ≠ "-" then
        match base with
        | none => .error "reflect.Value.Addr of unaddressable value"
        | some b =>
          match walkObj f tagName val (some (b + sf.Offset)) s with
          | .error e => .error e
          | .ok s1 => walkFields f tagName rest base s1
      else walkFields f tagName rest base s
    else if tag = "" ∨ tag = "-" then walkFields f tagName rest base s
    else
      match f (.mk val (base.map (fun b => b + sf.Offset))) sf tag s with
      | .error e => .error e
      | .ok s1 => walkFields f tagName rest base s1
end

/-- The function `WalkTaggedFields`: nothing happens for the zero Value
(`v.Kind() == 0`); a valid value is walked by `walkObj`. -/
def WalkTaggedFields {σ : Type} (v : Value) (f : WalkTaggedFieldFn σ) (tagName : String)
    (s : σ) : Except String σ :=
  match v with
  | .zero => .ok s
  | .mk obj addr => walkObj f tagName obj addr s

/-- The function `HasTaggedFields`: the callback sets `found = true`. -/
def HasTaggedFields (i : Option Obj) (tagName : String) : Except String Bool :=
  WalkTaggedFields (ValueOf i) (fun _ _ _ _ => .ok true) tagName false

/-! ## The identity resolver -/

/-- The callback of `FindTaggedName`. Its state is the pair of the captured
variables `(found, name)`, and `target` is the captured `unsafeAddr`. -/
def findVisitor (target : Nat) : WalkTaggedFieldFn (Bool × String) :=
  fun v _ tag st =>
    if st.1 then .ok st
    else
      match v.UnsafeAddr with
      | .error e => .error e
      | .ok a => if a = target then .ok (true, tag) else .ok st

/-- The message of the error for a nil `structPtr` or `fieldPtr`. -/
def errRequired : String := "structPtr and fieldPtr are required"

/-- The message of the error for a structure that is not addressable. -/
def errCanNotAddr : String := "can not take address of structure, please pass a pointer"

/-- The message of the error for a field that the walk did not meet. -/
def errNotFound : String := "could not find field value in struct"

/-- The function `FindTaggedName`. The arguments are `interface{}` values
(`none` is nil); the result is the pair `(name, err)` with `err = none` for a nil
error, or a panic. -/
def FindTaggedName (structPtr fieldPtr : Option Obj) (tagName : String) :
    Except String (String × Option String) :=
  match structPtr, fieldPtr with
  | none, _ => .ok ("", some errRequired)
  | some _, none => .ok ("", some errRequired)
  | some sp, some fp =>
    let v := Indirect (ValueOf (some sp))
    if !v.CanAddr then .ok ("", some errCanNotAddr)
    else
      match (ValueOf (some fp)).Elem with
      | .error e => .error e
      | .ok fe =>
        match fe.UnsafeAddr with
        | .error e => .error e
        | .ok target =>
          match WalkTaggedFields v (findVisitor target) tagName (false, "") with
          | .error e => .error e
          | .ok (found, name) =>
            if found then .ok (name, none) else .ok ("", some errNotFound)

/-- The function `Tagged`: it panics with the error of `FindTaggedName`. -/
def Tagged (structPtr fieldPtr : Option Obj) (tagName : String) : Except String String :=
  match FindTaggedName structPtr fieldPtr tagName with
  | .error e => .error e
  | .ok (_, some err) => .error err
  | .ok (name, none) => .ok name

/-! ## What a walk visits -/

/-- One call of the visitor: the field value, its descriptor and its tag. -/
abbrev Visit := Value × StructField × String

/-- Runs a visitor over a sequence of visits, stopping at its first panic. -/
def runVisits {σ : Type} (f : WalkTaggedFieldFn σ) : List Visit → σ → Except String σ
  | [], s => .ok s
  | (v, sf, tag) :: rest, s =>
    match f v sf tag s with
    | .error e => .error e
    | .ok s1 => runVisits f rest s1

mutual
/-- The visits a walk of `obj` makes when it meets no panic: pointers are
followed, a non-struct yields nothing. -/
def visitsObj (tagName : String) : Obj → Option Nat → List Visit
  | .leaf _, _ => []
  | .nilPtr _, _ => []
  | .ptr a target, _ => visitsObj tagName target (some a)
  | .struct fields, addr => visitsFields tagName fields addr
/-- The visits for the fields of a struct at address `base`: an embedded field
whose primary tag is not "-" yields the visits of its own object at its
position, an embedded field tagged "-" yields nothing, and another field yields
itself when its primary tag is neither empty nor "-". -/
def visitsFields (tagName : String) : Fields → Option Nat → List Visit
  | .nil, _ => []
  | .cons sf val rest, base =>
    if sf.Anonymous then
      (if primaryTag (sf.Tag.Get tagName) ≠ "-"
        then visitsObj tagName val (base.map (fun b => b + sf.Offset)) else [])
        ++ visitsFields tagName rest base
    else if primaryTag (sf.Tag.Get tagName) = "" ∨ primaryTag (sf.Tag.Get tagName) = "-"
      then visitsFields tagName rest base
    else (.mk val (base.map (fun b => b + sf.Offset)), sf, primaryTag (sf.Tag.Get tagName))
      :: visitsFields tagName rest base
end

/-- Whether the walk continues without a panic after `v` became the zero Value,
for the static type that remains. -/
def zeroWalkable : GoType → Bool
  | .leaf _ => true
  | .ptr _ => false
  | .struct fields => fields.isEmpty

mutual
/-- Whether a walk of `obj` meets no panic of `reflect`: it follows no nil pointer
to a pointer or to a struct that has fields, and it enters an embedded field
(one whose primary tag is not "-") only of an addressable struct. The flag
tells whether the value holding `obj` is addressable. -/
def walkableObj (tagName : String) : Obj → Bool → Bool
  | .leaf _, _ => true
  | .nilPtr elem, _ => zeroWalkable elem
  | .ptr _ target, _ => walkableObj tagName target true
  | .struct fields, canAddr => walkableFields tagName fields canAddr
/-- The same for the fields of a struct. -/
def walkableFields (tagName : String) : Fields → Bool → Bool
  | .nil, _ => true
  | .cons sf val rest, canAddr =>
    (if sf.Anonymous ∧ primaryTag (sf.Tag.Get tagName) ≠ "-"
      then canAddr && walkableObj tagName val true else true)
      && walkableFields tagName rest canAddr
end

/-- The visitor that records every visit it is passed, in order. -/
def recordVisits : WalkTaggedFieldFn (List Visit) :=
  fun v sf tag seen => .ok (seen ++ [(v, sf, tag)])

/-- The `(field, tag)` pair of a visit. -/
def Visit.pair (w : Visit) : StructField × String := (w.2.1, w.2.2)

/-- The visitor that records the `(field, tag)` pairs it is passed, in order. -/
def recordPairs : WalkTaggedFieldFn (List (StructField × String)) :=
  fun _ sf tag seen => .ok (seen ++ [(sf, tag)])

mutual
/-- The flattening of the declared fields of a record as the claim on the walk
words it: an embedded field contributes the flattening of its own sub-record. -/
def referenceFlattenObj (tagName : String) : Obj → List (StructField × String)
  | .leaf _ => []
  | .nilPtr _ => []
  | .ptr _ target => referenceFlattenObj tagName target
  | .struct fields => referenceFlattenFields tagName fields
/-- The flattening of a field list as the claim words it: an embedded field
contributes its sub-record at its position and is never listed itself, another
field is listed with its primary tag exactly when that is neither empty nor
"-", and a named record-typed field is not entered. -/
def referenceFlattenFields (tagName : String) : Fields → List (StructField × String)
  | .nil => []
  | .cons sf val rest =>
    if sf.Anonymous then
      referenceFlattenObj tagName val ++ referenceFlattenFields tagName rest
    else if primaryTag (sf.Tag.Get tagName) = "" ∨ primaryTag (sf.Tag.Get tagName) = "-"
      then referenceFlattenFields tagName rest
    else (sf, primaryTag (sf.Tag.Get tagName)) :: referenceFlattenFields tagName rest
end

mutual
/-- The flattening with the sentinel rule for embedded fields: as
`referenceFlattenObj`, but an embedded field whose primary tag is "-"
contributes nothing. -/
def flattenObj (tagName : String) : Obj → List (StructField × String)
  | .leaf _ => []
  | .nilPtr _ => []
  | .ptr _ target => flattenObj tagName target
  | .struct fields => flattenFields tagName fields
/-- The flattening of a field list with the sentinel rule for embedded fields. -/
def flattenFields (tagName : String) : Fields → List (StructField × String)
  | .nil => []
  | .cons sf val rest =>
    if sf.Anonymous then
      (if primaryTag (sf.Tag.Get tagName) ≠ "-" then flattenObj tagName val else [])
        ++ flattenFields tagName rest
    else if primaryTag (sf.Tag.Get tagName) = "" ∨ primaryTag (sf.Tag.Get tagName) = "-"
      then flattenFields tagName rest
    else (sf, primaryTag (sf.Tag.Get tagName)) :: flattenFields tagName rest
end

/-- The declared fields of a struct as a list. -/
def Fields.toList : Fields → List (StructField × Obj)
  | .nil => []
  | .cons sf val rest => (sf, val) :: Fields.toList rest

/-! ## The typed populator -/

/-- The parsing functions of package `strconv` that the populator calls, taken
as given: `ParseBool(value)`, `ParseInt(value, 10, 64)` and
`ParseFloat(value, 64)`. A failure carries the text of `err.Error()`; `F` stands
for `float64`. -/
structure Strconv (F : Type) where
  ParseBool : String → Except String Bool
  ParseInt : String → Except String Int
  ParseFloat : String → Except String F

/-- The function `ReadBoolTag`: the new value of `*holder` and the returned error. -/
def ReadBoolTag {F : Type} (sc : Strconv F) (tag : StructTag) (name : String)
    (holder : Bool) : Bool × Option String :=
  match tag.Lookup name with
  | some value =>
    match sc.ParseBool value with
    | .error err =>
      (holder, some ("failed to parse bool value " ++ value ++ " in tag " ++ name ++ ": " ++ err))
    | .ok v => (v, none)
  | none => (holder, none)

/-- The function `ReadBoolPtrTag`; `holder` is the `*bool` that `*holder` is. -/
def ReadBoolPtrTag {F : Type} (sc : Strconv F) (tag : StructTag) (name : String)
    (holder : Option Bool) : Option Bool × Option String :=
  match tag.Lookup name with
  | some value =>
    match sc.ParseBool value with
    | .error err =>
      (holder, some ("failed to parse bool value " ++ value ++ " in tag " ++ name ++ ": " ++ err))
    | .ok v => (some v, none)
  | none => (holder, none)

/-- The function `ReadStringTag`; `holder = none` is the nil pointer, for which
nothing happens, and the result is what `holder` points to afterwards. -/
def ReadStringTag (tag : StructTag) (name : String) (holder : Option String) : Option String :=
  match holder with
  | none => none
  | some cur =>
    match tag.Lookup name with
    | some value => if cur ≠ "" ∧ value = "-" then some "" else some value
    | none => some cur

/-- The function `ReadStringPtrTag`; `holder` is the `*string` that `*holder` is,
and the result is its new value. -/
def ReadStringPtrTag (tag : StructTag) (name : String) (holder : Option String) : Option String :=
  match tag.Lookup name with
  | some value =>
    match holder with
    | some cur => if cur ≠ "" ∧ value = "-" then none else some value
    | none => some value
  | none => holder

/-- The function `ReadIntTag`. -/
def ReadIntTag {F : Type} (sc : Strconv F) (tag : StructTag) (name : String)
    (holder : Int) : Int × Option String :=
  match tag.Lookup name with
  | some value =>
    match sc.ParseInt value with
    | .error err =>
      (holder, some ("failed to parse float value " ++ value ++ " in tag " ++ name ++ ": " ++ err))
    | .ok v => (v, none)
  | none => (holder, none)

/-- The function `ReadIntPtrTag`. -/
def ReadIntPtrTag {F : Type} (sc : Strconv F) (tag : StructTag) (name : String)
    (holder : Option Int) : Option Int × Option String :=
  match tag.Lookup name with
  | some value =>
    match sc.ParseInt value with
    | .error err =>
      (holder, some ("failed to parse int value " ++ value ++ " in tag " ++ name ++ ": " ++ err))
    | .ok v => (some v, none)
  | none => (holder, none)

/-- The function `ReadFloatTag`. -/
def ReadFloatTag {F : Type} (sc : Strconv F) (tag : StructTag) (name : String)
    (holder : F) : F × Option String :=
  match tag.Lookup name with
  | some value =>
    match sc.ParseFloat value with
    | .error err =>
      (holder, some ("failed to parse float value " ++ value ++ " in tag " ++ name ++ ": " ++ err))
    | .ok v => (v, none)
  | none => (holder, none)

/-- The function `ReadFloatPtrTag`. -/
def ReadFloatPtrTag {F : Type} (sc : Strconv F) (tag : StructTag) (name : String)
    (holder : Option F) : Option F × Option String :=
  match tag.Lookup name with
  | some value =>
    match sc.ParseFloat value with
    | .error err =>
      (holder, some ("failed to parse float value " ++ value ++ " in tag " ++ name ++ ": " ++ err))
    | .ok v => (some v, none)
  | none => (holder, none)

/-- The slice expression `s[n:]`. Go counts bytes and this counts characters;
the two agree where the code uses it, on text whose first `n` characters are
ASCII. -/
def sliceFrom (s : String) (n : Nat) : String :=
  String.mk (s.data.drop n)

/-- The loop of `JoinErrors`: the value of `join` after the given errors. -/
def joinLoop (join : String) : List (Option String) → String
  | [] => join
  | some err :: rest => joinLoop (join ++ ", " ++ err) rest
  | none :: rest => joinLoop join rest

/-- The function `JoinErrors`; an error is the text of `err.Error()` and `none`
is the nil error. -/
def JoinErrors (errs : List (Option String)) : Option String :=
  if joinLoop "" errs ≠ "" then some (sliceFrom (joinLoop "" errs) 2) else none

/-- The content of a destination field by the case of the type switch of
`PopulateFieldsFromTags` it falls in: a pointer field holds `none` when nil and
the value pointed to otherwise; `other` is a field of any other type. -/
inductive Holder (F : Type)
  | string (s : String)
  | stringPtr (p : Option String)
  | int64 (n : Int)
  | int64Ptr (p : Option Int)
  | float64 (x : F)
  | float64Ptr (p : Option F)
  | bool (b : Bool)
  | boolPtr (p : Option Bool)
  | other
deriving DecidableEq, Repr

/-- A field of the destination struct: the `Name` and `PkgPath` of its
descriptor (`PkgPath` is empty exactly for an exported field) and its content. -/
structure DestField (F : Type) where
  Name : String
  PkgPath : String
  val : Holder F
deriving DecidableEq, Repr

/-- The expression `strings.ToLower(ptf.Name[0:1]) + ptf.Name[1:]`, which slices
bytes. When the name starts with an ASCII character, the first byte is that
character and the result is the name with it in lower case. Otherwise the
first byte is the lead byte of a longer UTF-8 sequence: `strings.ToLower`
turns the lone byte into U+FFFD and `Name[1:]` starts with a continuation byte,
so the result is not UTF-8 text and equals no key of a `StructTag` as it is
read here, whose keys are text; `none` stands for such a key. The name of a
field is never empty. -/
def tagNameOf (name : String) : Option String :=
  match name.data with
  | [] => some ""
  | c :: rest => if c.toNat < 128 then some (String.mk (c.toLower :: rest)) else none

/-- The result `value, ok` of `tag.Lookup(tagName)` for the key derived from a
field name; a key that is not text is in no bundle. -/
def lookupDerived (tag : StructTag) (name : String) : Option String :=
  match tagNameOf name with
  | some tagName => tag.Lookup tagName
  | none => none

/-- The message of the panic of `Value.Interface` on an unexported field. -/
def errInterface : String :=
  "reflect.Value.Interface: cannot return value obtained from unexported field or method"

/-- The type switch of `PopulateFieldsFromTags` on the pointer `pvf` to a field:
the field afterwards and the value of `err` after the switch. The cases are
those of the source, in its order; a field of another type matches none. -/
def readField {F : Type} (sc : Strconv F) (fieldTag : StructTag) (tagName : String)
    (fld : DestField F) : DestField F × Option String :=
  match fld.val with
  | .stringPtr p =>
    ({ fld with val := .stringPtr (ReadStringPtrTag fieldTag tagName p) }, none)
  | .string cur =>
    match ReadStringTag fieldTag tagName (some cur) with
    | some now => ({ fld with val := .string now }, none)
    | none => (fld, none)
  | .int64Ptr p =>
    ({ fld with val := .int64Ptr (ReadIntPtrTag sc fieldTag tagName p).1 },
      (ReadIntPtrTag sc fieldTag tagName p).2)
  | .int64 n =>
    ({ fld with val := .int64 (ReadIntTag sc fieldTag tagName n).1 },
      (ReadIntTag sc fieldTag tagName n).2)
  | .float64Ptr p =>
    ({ fld with val := .float64Ptr (ReadFloatPtrTag sc fieldTag tagName p).1 },
      (ReadFloatPtrTag sc fieldTag tagName p).2)
  | .float64 x =>
    ({ fld with val := .float64 (ReadFloatTag sc fieldTag tagName x).1 },
      (ReadFloatTag sc fieldTag tagName x).2)
  | .boolPtr p =>
    ({ fld with val := .boolPtr (ReadBoolPtrTag sc fieldTag tagName p).1 },
      (ReadBoolPtrTag sc fieldTag tagName p).2)
  | .bool b =>
    ({ fld with val := .bool (ReadBoolTag sc fieldTag tagName b).1 },
      (ReadBoolTag sc fieldTag tagName b).2)
  | .other => (fld, none)

/-- The type switch of `PopulateFieldsFromTags` with the key derived from the
name of the field. For a key that is not text every `Read*Tag` finds
`ok = false` in `tag.Lookup` and leaves the field as it is. -/
def readDerived {F : Type} (sc : Strconv F) (fieldTag : StructTag) (fld : DestField F) :
    DestField F × Option String :=
  match tagNameOf fld.Name with
  | some tagName => readField sc fieldTag tagName fld
  | none => (fld, none)

/-- One iteration of the loop of `PopulateFieldsFromTags`: the field afterwards
and the value of `err`, or the panic of `Interface()` on an unexported field. -/
def populateField {F : Type} (sc : Strconv F) (fieldTag : StructTag) (fld : DestField F) :
    Except String (DestField F × Option String) :=
  if fld.PkgPath ≠ "" then .error errInterface
  else .ok (readDerived sc fieldTag fld)

/-- The loop of `PopulateFieldsFromTags` over the remaining fields, with the
errors appended to `errs` so far: the fields afterwards and the final `errs`. -/
def populateLoop {F : Type} (sc : Strconv F) (fieldTag : StructTag) :
    List (DestField F) → List String → Except String (List (DestField F) × List String)
  | [], errs => .ok ([], errs)
  | fld :: rest, errs =>
    match populateField sc fieldTag fld with
    | .error e => .error e
    | .ok (now, err) =>
      match populateLoop sc fieldTag rest (match err with
          | some e => errs ++ [e]
          | none => errs) with
      | .error e => .error e
      | .ok (restNow, errsNow) => .ok (now :: restNow, errsNow)

/-- The function `PopulateFieldsFromTags`, called with a non-nil pointer to a
struct whose fields are `dest`: the fields afterwards and the returned error,
or a panic. -/
def PopulateFieldsFromTags {F : Type} (sc : Strconv F) (dest : List (DestField F))
    (fieldTag : StructTag) : Except String (List (DestField F) × Option String) :=
  match populateLoop sc fieldTag dest [] with
  | .error e => .error e
  | .ok (now, errs) => .ok (now, JoinErrors (errs.map some))

/-- Whether a parse failed. -/
def failed {α : Type} : Except String α → Bool
  | .error _ => true
  | .ok _ => false

/-- Whether the field's key is present in the bundle with a raw value that fails
to parse for the kind of the field. A string field has nothing to parse. -/
def failsToParse {F : Type} (sc : Strconv F) (fieldTag : StructTag) (fld : DestField F) : Bool :=
  match lookupDerived fieldTag fld.Name with
  | none => false
  | some raw =>
    match fld.val with
    | .int64 _ => failed (sc.ParseInt raw)
    | .int64Ptr _ => failed (sc.ParseInt raw)
    | .float64 _ => failed (sc.ParseFloat raw)
    | .float64Ptr _ => failed (sc.ParseFloat raw)
    | .bool _ => failed (sc.ParseBool raw)
    | .boolPtr _ => failed (sc.ParseBool raw)
    | _ => false

/-- The messages of the fields that fail, in the order of declaration. -/
def fieldMessages {F : Type} (sc : Strconv F) (fieldTag : StructTag)
    (dest : List (DestField F)) : List String :=
  dest.filterMap (fun fld => (readDerived sc fieldTag fld).2)

/-- The fields of the destination struct after a call of
`PopulateFieldsFromTags`, also when the call panicked: the loop writes the
fields in place one after the other, so a panic leaves the fields before the
panicking one written and that field and the fields after it as they were. -/
def populateState {F : Type} (sc : Strconv F) (fieldTag : StructTag) :
    List (DestField F) → List (DestField F)
  | [] => []
  | fld :: rest =>
    match populateField sc fieldTag fld with
    | .error _ => fld :: rest
    | .ok (now, _) => now :: populateState sc fieldTag rest

/-! ## A sample of `strconv`

The theorems on the populator hold for every `Strconv`. The sample below
evaluates them on concrete text: it follows `strconv` for booleans and for
decimal integers, and reads a float literal of the form `[+-]digits[.digits]`
as a decimal number, without rounding it to binary. -/

/-- The text of a `strconv.NumError` for a syntax error; `strconv.Quote` is
taken to add the two quotes only, which is what it does on plain text. -/
def syntaxError (fn str : String) : String :=
  "strconv." ++ fn ++ ": parsing \"" ++ str ++ "\": invalid syntax"

/-- The text of a `strconv.NumError` for a value out of range. -/
def rangeError (fn str : String) : String :=
  "strconv." ++ fn ++ ": parsing \"" ++ str ++ "\": value out of range"

/-- The function `strconv.ParseBool`. -/
def sampleParseBool (str : String) : Except String Bool :=
  if str ∈ ["1", "t", "T", "true", "TRUE", "True"] then .ok true
  else if str ∈ ["0", "f", "F", "false", "FALSE", "False"] then .ok false
  else .error (syntaxError "ParseBool" str)

/-- The number a non-empty run of decimal digits denotes, most significant first,
continuing from `acc`. -/
def digitsValue (acc : Nat) : List Char → Option Nat
  | [] => some acc
  | c :: rest => if c.isDigit then digitsValue (10 * acc + (c.toNat - 48)) rest else none

/-- The number a text of one or more decimal digits denotes. -/
def decimalValue : List Char → Option Nat
  | [] => none
  | c :: rest => digitsValue 0 (c :: rest)

/-- The call `strconv.ParseInt(str, 10, 64)`: an optional sign and decimal digits,
within the range of `int64`. -/
def sampleParseInt (str : String) : Except String Int :=
  match str.data with
  | '-' :: rest =>
    match decimalValue rest with
    | some n => if n ≤ 2 ^ 63 then .ok (-(n : Int)) else .error (rangeError "ParseInt" str)
    | none => .error (syntaxError "ParseInt" str)
  | '+' :: rest =>
    match decimalValue rest with
    | some n => if n < 2 ^ 63 then .ok (n : Int) else .error (rangeError "ParseInt" str)
    | none => .error (syntaxError "ParseInt" str)
  | digits =>
    match decimalValue digits with
    | some n => if n < 2 ^ 63 then .ok (n : Int) else .error (rangeError "ParseInt" str)
    | none => .error (syntaxError "ParseInt" str)

/-- A decimal number `mantissa / 10 ^ scale`, standing for a `float64` in the
sample. -/
structure Decimal where
  mantissa : Int
  scale : Nat
deriving DecidableEq, Repr

/-- The unsigned part of a sample float literal: `digits` or `digits.digits`. -/
def decimalLiteral (cs : List Char) : Option (Nat × Nat) :=
  match decimalValue (cs.takeWhile (fun c => c ≠ '.')), cs.dropWhile (fun c => c ≠ '.') with
  | some n, [] => some (n, 0)
  | some n, _ :: frac =>
    match decimalValue frac with
    | some m => some (n * 10 ^ frac.length + m, frac.length)
    | none => none
  | none, _ => none

/-- The sample of `strconv.ParseFloat(str, 64)`. -/
def sampleParseFloat (str : String) : Except String Decimal :=
  match str.data with
  | '-' :: rest =>
    match decimalLiteral rest with
    | some (m, k) => .ok ⟨-(m : Int), k⟩
    | none => .error (syntaxError "ParseFloat" str)
  | '+' :: rest =>
    match decimalLiteral rest with
    | some (m, k) => .ok ⟨(m : Int), k⟩
    | none => .error (syntaxError "ParseFloat" str)
  | cs =>
    match decimalLiteral cs with
    | some (m, k) => .ok ⟨(m : Int), k⟩
    | none => .error (syntaxError "ParseFloat" str)

/-- The sample instance of `Strconv`. -/
def sampleStrconv : Strconv Decimal :=
  ⟨sampleParseBool, sampleParseInt, sampleParseFloat⟩

/-! ## The records of the test file

Offsets are those of a 64-bit platform, where an `int` takes eight bytes. -/

/-- The field `A int` tagged `json:"a"` of the test type `embedded`. -/
def fieldA : StructField := ⟨"A", "", [("json", "a")], 0, false⟩

/-- The test type `embedded`: `struct { A int }`. -/
def embedded : Obj := .struct (.cons fieldA (.leaf .Int) .nil)

/-- The field `B int` tagged `path:"b" json:"-"`. -/
def fieldB : StructField := ⟨"B", "", [("path", "b"), ("json", "-")], 0, false⟩

/-- The embedded field `embedded` with the given tag, after `B`. -/
def fieldEmbedded (tag : StructTag) : StructField :=
  ⟨"embedded", "github.com/swaggest/refl_test", tag, 8, true⟩

/-- The test type `structWithEmbedded`. -/
def structWithEmbedded : Obj :=
  .struct (.cons fieldB (.leaf .Int) (.cons (fieldEmbedded []) embedded .nil))

/-- The test type `structWithTaggedEmbedded`: the embedded field is tagged
`json:"emb"`. -/
def structWithTaggedEmbedded : Obj :=
  .struct (.cons fieldB (.leaf .Int) (.cons (fieldEmbedded [("json", "emb")]) embedded .nil))

/-- The test type `structWithIgnoredEmbedded`: the embedded field is tagged
`json:"-"`. -/
def structWithIgnoredEmbedded : Obj :=
  .struct (.cons fieldB (.leaf .Int) (.cons (fieldEmbedded [("json", "-")]) embedded .nil))

/-- The field `Deeper` of the test type `structWithInline`, tagged
`json:"deeper"`. -/
def fieldDeeper : StructField := ⟨"Deeper", "", [("json", "deeper")], 0, false⟩

/-- The field `Data` of the test type `structWithInline`, tagged `json:"data"`. -/
def fieldData : StructField := ⟨"Data", "", [("json", "data")], 0, false⟩

/-- The value of `si.Data.Deeper`: `struct { B int; embedded }`. -/
def deeperObj : Obj := structWithEmbedded

/-- The value of `si.Data`: `struct { Deeper struct {...} }`. -/
def dataObj : Obj := .struct (.cons fieldDeeper deeperObj .nil)

/-- The test type `structWithInline`. -/
def structWithInline : Obj := .struct (.cons fieldData dataObj .nil)

/-- The embedded field `AnonymousField` of the test type `mixedStruct`. -/
def fieldAnonymousField : StructField := ⟨"AnonymousField", "", [], 0, true⟩

/-- The test type `AnonymousField`: `struct { AnonProp int }` tagged
`json:"anonProp"`. -/
def anonymousField : Obj :=
  .struct (.cons ⟨"AnonProp", "", [("json", "anonProp")], 0, false⟩ (.leaf .Int) .nil)

/-- The test type `mixedStruct`. -/
def mixedStruct : Obj :=
  .struct (.cons fieldAnonymousField anonymousField
    (.cons ⟨"FieldQuery", "", [("query", "fieldQuery")], 8, false⟩ (.leaf .Int)
      (.cons ⟨"FieldBody", "", [("json", "fieldBody")], 16, false⟩ (.leaf .Int) .nil)))

/-- The field `Marker struct{}` tagged `json:"marker"`: a field of size zero,
so the field declared after it starts at the same offset. -/
def fieldMarker : StructField := ⟨"Marker", "", [("json", "marker")], 0, false⟩

/-- The field `Count int64` tagged `json:"count"`, at offset zero after the
field of size zero. -/
def fieldCount : StructField := ⟨"Count", "", [("json", "count")], 0, false⟩

/-- The record `struct { Marker struct{}; Count int64 }` with both fields tagged
under `json`. -/
def markedRecord : Obj :=
  .struct (.cons fieldMarker (.struct .nil) (.cons fieldCount (.leaf .Int64) .nil))

/-- The test type `schema` at its zero value. -/
def schema : List (DestField Decimal) :=
  [⟨"Title", "", .string ""⟩, ⟨"Desc", "", .stringPtr none⟩, ⟨"Min", "", .float64Ptr none⟩,
   ⟨"Max", "", .float64 ⟨0, 0⟩⟩, ⟨"Limit", "", .int64 0⟩, ⟨"Offset", "", .int64Ptr none⟩,
   ⟨"Deprecated", "", .bool false⟩, ⟨"Required", "", .boolPtr none⟩]

/-- The tag of the field `Property` of the test type `value`. -/
def valueTag : StructTag :=
  [("title", "Value"), ("desc", "..."), ("min", "-1.23"), ("max", "10.1"), ("limit", "5"),
   ("offset", "2"), ("deprecated", "true"), ("required", "f")]

/-! ## Further records -/

/-- The fields `pre` followed by the fields `post`. -/
def Fields.append : Fields → Fields → Fields
  | .nil, post => post
  | .cons sf val rest, post => .cons sf val (Fields.append rest post)

/-- The static type of the test type `structWithEmbedded`, as the type of a nil
pointer shows it. -/
def structWithEmbeddedType : GoType := .struct [fieldB, fieldEmbedded []]

/-- The field `Name string` tagged `json:",omitempty"`: options and no name. -/
def fieldName : StructField := ⟨"Name", "", [("json", ",omitempty")], 0, false⟩

/-- The field `Note string` tagged `json:"-,omitempty"`, after `Name`. -/
def fieldNote : StructField := ⟨"Note", "", [("json", "-,omitempty")], 16, false⟩

/-- The record `struct { Name string; Note string }` with the two tags above. -/
def optionsRecord : Obj :=
  .struct (.cons fieldName (.leaf .String) (.cons fieldNote (.leaf .String) .nil))

/-- The package path of the unexported fields of the records below. -/
def testPkg : String := "github.com/swaggest/refl_test"

/-- The destination `struct { limit int64 }`: one unexported field. -/
def hiddenLimit : List (DestField Decimal) := [⟨"limit", testPkg, .int64 0⟩]

/-- The destination `struct { Limit int64; cache map[string]int }`. -/
def limitWithCache : List (DestField Decimal) :=
  [⟨"Limit", "", .int64 0⟩, ⟨"cache", testPkg, .other⟩]

/-- The destination `struct { title string }`: one unexported field. -/
def hiddenTitle : List (DestField Decimal) := [⟨"title", testPkg, .string ""⟩]

/-- The destination `struct { desc *string }`: one unexported field, nil. -/
def hiddenDesc : List (DestField Decimal) := [⟨"desc", testPkg, .stringPtr none⟩]

/-- The destination `struct { offset *int64 }`: one unexported field, nil. -/
def hiddenOffset : List (DestField Decimal) := [⟨"offset", testPkg, .int64Ptr none⟩]

/-- The destination `struct { cache map[string]int; Title string }`: the
unexported field comes first. -/
def cacheThenTitle : List (DestField Decimal) :=
  [⟨"cache", testPkg, .other⟩, ⟨"Title", "", .string ""⟩]

/-- The destination `struct { Éa string }`: an exported field whose name starts
with a character that is not ASCII. -/
def accentedSchema : List (DestField Decimal) := [⟨"Éa", "", .string ""⟩]

/-- The destination `struct { Title string; cache map[string]int }` at its zero
value: the second field is unexported and of a kind the populator does not
parse. -/
def cachedSchema : List (DestField Decimal) :=
  [⟨"Title", "", .string ""⟩, ⟨"cache", "github.com/swaggest/refl_test", .other⟩]

/-! ## The walk and the visits it makes -/

theorem runVisits_append {σ : Type} (f : WalkTaggedFieldFn σ) (xs ys : List Visit) (s : σ) :
    runVisits f (xs ++ ys) s =
      match runVisits f xs s with
      | .error e => .error e
      | .ok s1 => runVisits f ys s1 := by
  induction xs generalizing s with
  | nil => rfl
  | cons x xs ih =>
    obtain ⟨v, sf, tag⟩ := x
    simp only [List.cons_append, runVisits]
    cases f v sf tag s with
    | error e => rfl
    | ok s1 => exact ih s1

theorem walkZero_of_zeroWalkable {σ : Type} (s : σ) (t : GoType) (h : zeroWalkable t = true) :
    walkZero s t = .ok s := by
  cases t with
  | leaf k => rfl
  | ptr elem => simp [zeroWalkable] at h
  | struct fields =>
    cases fields with
    | nil => rfl
    | cons x xs => simp [zeroWalkable] at h

mutual
theorem walkObj_eq_runVisits {σ : Type} (f : WalkTaggedFieldFn σ) (tagName : String) :
    ∀ (obj : Obj) (addr : Option Nat) (s : σ), walkableObj tagName obj addr.isSome = true →
      walkObj f tagName obj addr s = runVisits f (visitsObj tagName obj addr) s
  | .leaf _, _, _, _ => by simp [walkObj, visitsObj, runVisits]
  | .nilPtr elem, _, s, h => by
    simp only [walkableObj] at h
    simp [walkObj, visitsObj, runVisits, walkZero_of_zeroWalkable s elem h]
  | .ptr a target, _, s, h => by
    simp only [walkableObj] at h
    simp only [walkObj, visitsObj]
    exact walkObj_eq_runVisits f tagName target (some a) s h
  | .struct fields, addr, s, h => by
    simp only [walkableObj] at h
    simp only [walkObj, visitsObj]
    exact walkFields_eq_runVisits f tagName fields addr s h
theorem walkFields_eq_runVisits {σ : Type} (f : WalkTaggedFieldFn σ) (tagName : String) :
    ∀ (fields : Fields) (base : Option Nat) (s : σ),
      walkableFields tagName fields base.isSome = true →
      walkFields f tagName fields base s = runVisits f (visitsFields tagName fields base) s
  | .nil, _, _, _ => by simp [walkFields, visitsFields, runVisits]
  | .cons sf val rest, base, s, h => by
    simp only [walkableFields, Bool.and_eq_true] at h
    obtain ⟨hval, hrest⟩ := h
    have ihRest := fun s1 => walkFields_eq_runVisits f tagName rest base s1 hrest
    simp only [walkFields, visitsFields]
    by_cases hAnon : sf.Anonymous = true
    · by_cases hTag : primaryTag (sf.Tag.Get tagName) = "-"
      · simp [hAnon, hTag, ihRest]
      · simp only [hAnon, hTag, ne_eq, not_false_eq_true, and_self, if_true,
          Bool.and_eq_true] at hval
        obtain ⟨hAddr, hObj⟩ := hval
        cases base with
        | none => simp at hAddr
        | some b =>
          have ihVal := walkObj_eq_runVisits f tagName val (some (b + sf.Offset)) s hObj
          simp only [hAnon, hTag, ne_eq, not_false_eq_true, if_true, ihVal, Option.map_some',
            runVisits_append]
          cases runVisits f (visitsObj tagName val (some (b + sf.Offset))) s with
          | error e => rfl
          | ok s1 => exact ihRest s1
    · by_cases hSkip : primaryTag (sf.Tag.Get tagName) = "" ∨ primaryTag (sf.Tag.Get tagName) = "-"
      · simp [hAnon, hSkip, ihRest]
      · simp only [hAnon, hSkip, if_false, runVisits, Bool.false_eq_true]
        cases f (Value.mk val (Option.map (fun b => b + sf.Offset) base)) sf
            (primaryTag (sf.Tag.Get tagName)) s with
        | error e => rfl
        | ok s1 => exact ihRest s1
end

mutual
theorem walkable_of_walkObj_ok {σ : Type} (f : WalkTaggedFieldFn σ) (tagName : String) :
    ∀ (obj : Obj) (addr : Option Nat) (s s1 : σ), walkObj f tagName obj addr s = .ok s1 →
      walkableObj tagName obj addr.isSome = true
  | .leaf _, _, _, _, _ => by simp [walkableObj]
  | .nilPtr elem, _, s, s1, h => by
    simp only [walkObj] at h
    simp only [walkableObj]
    cases elem with
    | leaf k => rfl
    | ptr e => simp [walkZero] at h
    | struct fields =>
      cases fields with
      | nil => rfl
      | cons x xs => simp [walkZero] at h
  | .ptr a target, _, s, s1, h => by
    simp only [walkObj] at h
    simp only [walkableObj]
    exact walkable_of_walkObj_ok f tagName target (some a) s s1 h
  | .struct fields, addr, s, s1, h => by
    simp only [walkObj] at h
    simp only [walkableObj]
    exact walkable_of_walkFields_ok f tagName fields addr s s1 h
theorem walkable_of_walkFields_ok {σ : Type} (f : WalkTaggedFieldFn σ) (tagName : String) :
    ∀ (fields : Fields) (base : Option Nat) (s s1 : σ),
      walkFields f tagName fields base s = .ok s1 →
      walkableFields tagName fields base.isSome = true
  | .nil, _, _, _, _ => by simp [walkableFields]
  | .cons sf val rest, base, s, s1, h => by
    simp only [walkFields] at h
    simp only [walkableFields, Bool.and_eq_true]
    by_cases hAnon : sf.Anonymous = true
    · by_cases hTag : primaryTag (sf.Tag.Get tagName) = "-"
      · simp only [hAnon, hTag, ne_eq, not_true_eq_false, if_true, if_false] at h
        simp only [hAnon, hTag, ne_eq, not_true_eq_false, and_false, if_false, true_and]
        exact walkable_of_walkFields_ok f tagName rest base s s1 h
      · simp only [hAnon, hTag, ne_eq, not_false_eq_true, if_true] at h
        simp only [hAnon, hTag, ne_eq, not_false_eq_true, and_self, if_true, Bool.and_eq_true]
        cases base with
        | none => simp at h
        | some b =>
          simp only at h
          cases hw : walkObj f tagName val (some (b + sf.Offset)) s with
          | error e => simp [hw] at h
          | ok s2 =>
            simp only [hw] at h
            exact ⟨⟨rfl, walkable_of_walkObj_ok f tagName val (some (b + sf.Offset)) s s2 hw⟩,
              walkable_of_walkFields_ok f tagName rest (some b) s2 s1 h⟩
    · simp only [hAnon, Bool.false_eq_true, if_false] at h
      simp only [hAnon, Bool.false_eq_true, false_and, if_false, true_and]
      by_cases hSkip : primaryTag (sf.Tag.Get tagName) = "" ∨ primaryTag (sf.Tag.Get tagName) = "-"
      · simp only [hSkip, if_true] at h
        exact walkable_of_walkFields_ok f tagName rest base s s1 h
      · simp only [hSkip, if_false] at h
        cases hf : f (Value.mk val (Option.map (fun b => b + sf.Offset) base)) sf
            (primaryTag (sf.Tag.Get tagName)) s with
        | error e => simp [hf] at h
        | ok s2 =>
          simp only [hf] at h
          exact walkable_of_walkFields_ok f tagName rest base s2 s1 h
end

mutual
theorem visitsObj_canAddr (tagName : String) :
    ∀ (obj : Obj) (addr : Option Nat), addr.isSome = true →
      ∀ w ∈ visitsObj tagName obj addr, ∃ o q, w.1 = Value.mk o (some q)
  | .leaf _, _, _ => by simp [visitsObj]
  | .nilPtr _, _, _ => by simp [visitsObj]
  | .ptr a target, _, _ => by
    simp only [visitsObj]
    exact visitsObj_canAddr tagName target (some a) rfl
  | .struct fields, addr, h => by
    simp only [visitsObj]
    exact visitsFields_canAddr tagName fields addr h
theorem visitsFields_canAddr (tagName : String) :
    ∀ (fields : Fields) (base : Option Nat), base.isSome = true →
      ∀ w ∈ visitsFields tagName fields base, ∃ o q, w.1 = Value.mk o (some q)
  | .nil, _, _ => by simp [visitsFields]
  | .cons sf val rest, base, h => by
    obtain ⟨b, rfl⟩ := Option.isSome_iff_exists.mp h
    have ihRest := visitsFields_canAddr tagName rest (some b) rfl
    have ihVal := visitsObj_canAddr tagName val (some (b + sf.Offset)) rfl
    intro w hw
    simp only [visitsFields, Option.map_some'] at hw
    split at hw
    · rcases List.mem_append.mp hw with h1 | h2
      · split at h1
        · exact ihVal w h1
        · simp at h1
      · exact ihRest w h2
    · split at hw
      · exact ihRest w hw
      · rcases List.mem_cons.mp hw with h1 | h2
        · exact ⟨val, b + sf.Offset, by rw [h1]⟩
        · exact ihRest w h2
end

mutual
theorem visitsObj_tag (tagName : String) :
    ∀ (obj : Obj) (addr : Option Nat), ∀ w ∈ visitsObj tagName obj addr,
      w.2.2 ≠ "" ∧ w.2.2 ≠ "-"
  | .leaf _, _ => by simp [visitsObj]
  | .nilPtr _, _ => by simp [visitsObj]
  | .ptr a target, _ => by
    simp only [visitsObj]
    exact visitsObj_tag tagName target (some a)
  | .struct fields, addr => by
    simp only [visitsObj]
    exact visitsFields_tag tagName fields addr
theorem visitsFields_tag (tagName : String) :
    ∀ (fields : Fields) (base : Option Nat), ∀ w ∈ visitsFields tagName fields base,
      w.2.2 ≠ "" ∧ w.2.2 ≠ "-"
  | .nil, _ => by simp [visitsFields]
  | .cons sf val rest, base => by
    have ihRest := visitsFields_tag tagName rest base
    have ihVal := visitsObj_tag tagName val (base.map (fun b => b + sf.Offset))
    intro w hw
    simp only [visitsFields] at hw
    split at hw
    · rcases List.mem_append.mp hw with h1 | h2
      · split at h1
        · exact ihVal w h1
        · simp at h1
      · exact ihRest w h2
    · split at hw
      · exact ihRest w hw
      · rename_i hSkip
        rcases List.mem_cons.mp hw with h1 | h2
        · rw [h1]
          exact not_or.mp hSkip
        · exact ihRest w h2
end

mutual
theorem visitsObj_map_pair (tagName : String) :
    ∀ (obj : Obj) (addr : Option Nat),
      (visitsObj tagName obj addr).map Visit.pair = flattenObj tagName obj
  | .leaf _, _ => by simp [visitsObj, flattenObj]
  | .nilPtr _, _ => by simp [visitsObj, flattenObj]
  | .ptr a target, _ => by
    simp only [visitsObj, flattenObj]
    exact visitsObj_map_pair tagName target (some a)
  | .struct fields, addr => by
    simp only [visitsObj, flattenObj]
    exact visitsFields_map_pair tagName fields addr
theorem visitsFields_map_pair (tagName : String) :
    ∀ (fields : Fields) (base : Option Nat),
      (visitsFields tagName fields base).map Visit.pair = flattenFields tagName fields
  | .nil, _ => by simp [visitsFields, flattenFields]
  | .cons sf val rest, base => by
    have ihRest := visitsFields_map_pair tagName rest base
    have ihVal := visitsObj_map_pair tagName val (base.map (fun b => b + sf.Offset))
    simp only [visitsFields, flattenFields]
    split
    · split
      · simp [ihRest, ihVal]
      · simp [ihRest]
    · split
      · exact ihRest
      · simp [ihRest, Visit.pair]
end

theorem runVisits_recordVisits (vs seen : List Visit) :
    runVisits recordVisits vs seen = .ok (seen ++ vs) := by
  induction vs generalizing seen with
  | nil => simp [runVisits]
  | cons x xs ih =>
    obtain ⟨v, sf, tag⟩ := x
    simp [runVisits, recordVisits, ih]

theorem runVisits_recordPairs (vs : List Visit) (seen : List (StructField × String)) :
    runVisits recordPairs vs seen = .ok (seen ++ vs.map Visit.pair) := by
  induction vs generalizing seen with
  | nil => simp [runVisits]
  | cons x xs ih =>
    obtain ⟨v, sf, tag⟩ := x
    simp [runVisits, recordPairs, ih, Visit.pair]

theorem runVisits_found (vs : List Visit) (seen : Bool) :
    runVisits (fun _ _ _ _ => Except.ok true) vs seen = .ok (seen || !vs.isEmpty) := by
  induction vs generalizing seen with
  | nil => simp [runVisits]
  | cons x xs ih =>
    obtain ⟨v, sf, tag⟩ := x
    simp [runVisits, ih]

/-- A walk that completes with the recording visitor has recorded `visitsObj`,
and the value was walkable. -/
theorem visits_of_walk_ok (tagName : String) (obj : Obj) (addr : Option Nat) (vs : List Visit)
    (h : WalkTaggedFields (.mk obj addr) recordVisits tagName [] = .ok vs) :
    walkableObj tagName obj addr.isSome = true ∧ vs = visitsObj tagName obj addr := by
  have hw := walkable_of_walkObj_ok recordVisits tagName obj addr [] vs h
  refine ⟨hw, ?_⟩
  have h2 := walkObj_eq_runVisits recordVisits tagName obj addr [] hw
  simp only [WalkTaggedFields] at h
  rw [h2, runVisits_recordVisits] at h
  simpa using h.symm

/-- The walk with the recording visitor completes exactly on the walkable values. -/
theorem walk_completes_iff (tagName : String) (obj : Obj) (addr : Option Nat) :
    (∃ vs, WalkTaggedFields (.mk obj addr) recordVisits tagName [] = .ok vs) ↔
      walkableObj tagName obj addr.isSome = true := by
  constructor
  · rintro ⟨vs, h⟩
    exact (visits_of_walk_ok tagName obj addr vs h).1
  · intro h
    refine ⟨visitsObj tagName obj addr, ?_⟩
    simp only [WalkTaggedFields]
    rw [walkObj_eq_runVisits recordVisits tagName obj addr [] h, runVisits_recordVisits]
    simp

/-! ## The identity resolver on a walk -/

theorem runVisits_findVisitor_found (target : Nat) (vs : List Visit) (name : String) :
    runVisits (findVisitor target) vs (true, name) = .ok (true, name) := by
  induction vs with
  | nil => simp [runVisits]
  | cons x xs ih =>
    obtain ⟨v, sf, tag⟩ := x
    simp [runVisits, findVisitor, ih]

theorem runVisits_findVisitor_miss (target : Nat) (vs : List Visit) (name : String)
    (hAddr : ∀ w ∈ vs, ∃ o q, w.1 = Value.mk o (some q))
    (hMiss : ∀ w ∈ vs, w.1.UnsafeAddr ≠ .ok target) :
    runVisits (findVisitor target) vs (false, name) = .ok (false, name) := by
  induction vs with
  | nil => simp [runVisits]
  | cons x xs ih =>
    obtain ⟨v, sf, tag⟩ := x
    obtain ⟨o, q, hv⟩ := hAddr (v, sf, tag) (List.mem_cons_self _ _)
    have hq := hMiss (v, sf, tag) (List.mem_cons_self _ _)
    simp only at hv
    subst hv
    have hne : q ≠ target := by
      intro h
      apply hq
      simp [Value.UnsafeAddr, h]
    simp only [runVisits, findVisitor, Value.UnsafeAddr, hne, if_false, Bool.false_eq_true]
    exact ih (fun w hw => hAddr w (List.mem_cons_of_mem _ hw))
      (fun w hw => hMiss w (List.mem_cons_of_mem _ hw))

theorem runVisits_findVisitor_hit (target : Nat) (pre post : List Visit) (o : Obj)
    (sf : StructField) (tag : String)
    (hAddr : ∀ w ∈ pre, ∃ o q, w.1 = Value.mk o (some q))
    (hMiss : ∀ w ∈ pre, w.1.UnsafeAddr ≠ .ok target) :
    runVisits (findVisitor target) (pre ++ (Value.mk o (some target), sf, tag) :: post)
      (false, "") = .ok (true, tag) := by
  rw [runVisits_append, runVisits_findVisitor_miss target pre "" hAddr hMiss]
  simp only [runVisits, findVisitor, Value.UnsafeAddr, if_true, Bool.false_eq_true, if_false]
  exact runVisits_findVisitor_found target post tag

/-- The call `FindTaggedName(&R, P, K)` for a record at address `a` and a non-nil
pointer `P` runs the walk of the record with the comparing visitor. -/
theorem findTaggedName_pointers (obj tgt : Obj) (a p : Nat) (tagName : String) :
    FindTaggedName (some (.ptr a obj)) (some (.ptr p tgt)) tagName =
      match walkObj (findVisitor p) tagName obj (some a) (false, "") with
      | .error e => .error e
      | .ok (found, name) =>
        if found then .ok (name, none) else .ok ("", some errNotFound) := by
  rfl

theorem findTaggedName_miss (tagName : String) (obj tgt : Obj) (a p : Nat) (vs : List Visit)
    (hWalk : WalkTaggedFields (.mk obj (some a)) recordVisits tagName [] = .ok vs)
    (hMiss : ∀ w ∈ vs, w.1.UnsafeAddr ≠ .ok p) :
    FindTaggedName (some (.ptr a obj)) (some (.ptr p tgt)) tagName =
      .ok ("", some errNotFound) := by
  obtain ⟨hw, hvs⟩ := visits_of_walk_ok tagName obj (some a) _ hWalk
  have hAddr : ∀ w ∈ vs, ∃ o q, w.1 = Value.mk o (some q) := by
    intro w hmem
    apply visitsObj_canAddr tagName obj (some a) rfl w
    rw [← hvs]
    exact hmem
  rw [findTaggedName_pointers, walkObj_eq_runVisits (findVisitor p) tagName obj (some a) _ hw,
    ← hvs, runVisits_findVisitor_miss p vs "" hAddr hMiss]
  rfl

theorem tagged_ok_iff (structPtr fieldPtr : Option Obj) (tagName name : String) :
    Tagged structPtr fieldPtr tagName = .ok name ↔
      FindTaggedName structPtr fieldPtr tagName = .ok (name, none) := by
  unfold Tagged
  cases FindTaggedName structPtr fieldPtr tagName with
  | error e => simp
  | ok r =>
    obtain ⟨n, err⟩ := r
    cases err <;> simp

theorem tagged_of_error (structPtr fieldPtr : Option Obj) (tagName name err : String)
    (h : FindTaggedName structPtr fieldPtr tagName = .ok (name, some err)) :
    Tagged structPtr fieldPtr tagName = .error err := by
  simp [Tagged, h]

theorem hasTaggedFields_of_walkable (tagName : String) (obj : Obj)
    (h : walkableObj tagName obj false = true) :
    HasTaggedFields (some obj) tagName = .ok (!(flattenObj tagName obj).isEmpty) := by
  have h2 := walkObj_eq_runVisits (fun _ _ _ _ => Except.ok true) tagName obj none false h
  simp only [HasTaggedFields, ValueOf, WalkTaggedFields]
  rw [h2, runVisits_found, ← visitsObj_map_pair tagName obj none]
  cases visitsObj tagName obj none <;> simp

/-! ## The claims on the field walker -/

/-- C1 (counterexample): for `structWithIgnoredEmbedded` reached through a pointer
and the key `json`, the walk passes nothing to the visitor, while the flattening
in which every embedded field contributes its sub-record lists the field `A`
with tag "a". -/
theorem walk_differs_from_reference_flattening :
    WalkTaggedFields (.mk structWithIgnoredEmbedded (some 4096)) recordPairs "json" [] = .ok [] ∧
    referenceFlattenObj "json" structWithIgnoredEmbedded = [(fieldA, "a")] ∧
    WalkTaggedFields (.mk structWithIgnoredEmbedded (some 4096)) recordPairs "json" [] ≠
      .ok (referenceFlattenObj "json" structWithIgnoredEmbedded) := by
  refine ⟨rfl, rfl, ?_⟩
  decide

/-- C1 (as amended): for every key and every value on which the walk meets no
panic of `reflect`, the sequence of `(field, tag)` pairs that `WalkTaggedFields`
passes to the visitor is the flattening of the declared fields in order, in
which an embedded field whose primary tag is not "-" contributes the walk of
its own sub-record at its position, an embedded field tagged "-" contributes
nothing, no embedded field is passed itself, another field is passed with its
primary tag exactly when that tag is neither empty nor "-", and a named
record-typed field is not entered. -/
theorem walk_passes_flattened_fields (tagName : String) (obj : Obj) (addr : Option Nat)
    (h : walkableObj tagName obj addr.isSome = true) :
    WalkTaggedFields (.mk obj addr) recordPairs tagName [] = .ok (flattenObj tagName obj) := by
  simp only [WalkTaggedFields]
  rw [walkObj_eq_runVisits recordPairs tagName obj addr [] h, runVisits_recordPairs,
    visitsObj_map_pair]
  simp

/-- C1 (witness): `structWithTaggedEmbedded` at an address is walkable under
`json`, and the walk passes the spliced-in field `A` only, the embedded field
tagged "emb" not being passed itself. -/
theorem walk_passes_flattened_fields_witness :
    walkableObj "json" structWithTaggedEmbedded (some 4096).isSome = true ∧
    WalkTaggedFields (.mk structWithTaggedEmbedded (some 4096)) recordPairs "json" [] =
      .ok [(fieldA, "a")] :=
  ⟨rfl, walk_passes_flattened_fields "json" structWithTaggedEmbedded (some 4096) rfl⟩

/-- C2 (failing input): `HasTaggedFields(mixedStruct{}, "json")`, the first
assertion of `TestHasTaggedFields`. The record is passed by value, so the
embedded field `AnonymousField` is not addressable and `fieldVal.Addr()` panics;
the record has the fields `AnonProp` and `FieldBody` tagged under `json`, and
the same record passed through a pointer yields true. -/
theorem hasTaggedFields_by_value_panics :
    HasTaggedFields (some mixedStruct) "json" =
      .error "reflect.Value.Addr of unaddressable value" ∧
    flattenObj "json" mixedStruct =
      [(⟨"AnonProp", "", [("json", "anonProp")], 0, false⟩, "anonProp"),
       (⟨"FieldBody", "", [("json", "fieldBody")], 16, false⟩, "fieldBody")] ∧
    HasTaggedFields (some (.ptr 4096 mixedStruct)) "json" = .ok true :=
  ⟨rfl, rfl, rfl⟩

/-! ## The claims on the identity resolver -/

/-- C3 (counterexample): in `struct { Marker struct{}; Count int64 }` the field
`Count` starts at the address of the zero-size field `Marker`. The walk under
`json` visits `Count` with tag "count", yet `FindTaggedName(&r, &r.Count, "json")`
returns "marker", the tag of the first visited field at that address. -/
theorem findTaggedName_returns_other_tag :
    WalkTaggedFields (.mk markedRecord (some 4096)) recordVisits "json" [] =
      .ok [(.mk (.struct .nil) (some 4096), fieldMarker, "marker"),
           (.mk (.leaf .Int64) (some 4096), fieldCount, "count")] ∧
    FindTaggedName (some (.ptr 4096 markedRecord)) (some (.ptr 4096 (.leaf .Int64))) "json" =
      .ok ("marker", none) ∧
    FindTaggedName (some (.ptr 4096 markedRecord)) (some (.ptr 4096 (.leaf .Int64))) "json" ≠
      .ok ("count", none) := by
  refine ⟨rfl, rfl, ?_⟩
  decide

/-- C3 (as amended): for every record `R` at address `a` on which the walk under
the key `K` completes, and every field `F` that the walk visits with tag `T`,
where no field visited before `F` has the address of `F`,
`FindTaggedName(&R, &F, K)` returns exactly `T` with no error. -/
theorem findTaggedName_of_visited (tagName : String) (obj fobj : Obj) (a p : Nat)
    (sf : StructField) (tag : String) (pre post : List Visit)
    (hWalk : WalkTaggedFields (.mk obj (some a)) recordVisits tagName [] =
      .ok (pre ++ (.mk fobj (some p), sf, tag) :: post))
    (hFirst : ∀ w ∈ pre, w.1.UnsafeAddr ≠ .ok p) :
    FindTaggedName (some (.ptr a obj)) (some (.ptr p fobj)) tagName = .ok (tag, none) := by
  obtain ⟨hw, hvs⟩ := visits_of_walk_ok tagName obj (some a) _ hWalk
  have hAddr : ∀ w ∈ pre, ∃ o q, w.1 = Value.mk o (some q) := by
    intro w hmem
    apply visitsObj_canAddr tagName obj (some a) rfl w
    rw [← hvs]
    exact List.mem_append_left _ hmem
  rw [findTaggedName_pointers, walkObj_eq_runVisits (findVisitor p) tagName obj (some a) _ hw,
    ← hvs, runVisits_findVisitor_hit p pre post fobj sf tag hAddr hFirst]
  rfl

/-- C3 (witness): the field `A` spliced into `structWithEmbedded` is visited
under `json` with tag "a", first, and `FindTaggedName(&se, &se.A, "json")`
returns "a". -/
theorem findTaggedName_of_visited_witness :
    WalkTaggedFields (.mk structWithEmbedded (some 4096)) recordVisits "json" [] =
      .ok ([] ++ (.mk (.leaf .Int) (some 4104), fieldA, "a") :: []) ∧
    (∀ w ∈ ([] : List Visit), w.1.UnsafeAddr ≠ .ok 4104) ∧
    FindTaggedName (some (.ptr 4096 structWithEmbedded)) (some (.ptr 4104 (.leaf .Int))) "json" =
      .ok ("a", none) :=
  ⟨rfl, by simp,
    findTaggedName_of_visited "json" structWithEmbedded (.leaf .Int) 4096 4104 fieldA "a" [] []
      rfl (by simp)⟩

/-- C4 (counterexample): `&si.Data.Deeper` does not point to a field of `si`
(`structWithInline` has the one field `Data`, not embedded, whose value is
another object), but it has the address of `si.Data`, and
`FindTaggedName(&si, &si.Data.Deeper, "json")` returns "data" with no error. -/
theorem findTaggedName_finds_foreign_pointer :
    structWithInline = .struct (.cons fieldData dataObj .nil) ∧
    fieldData.Anonymous = false ∧
    deeperObj ≠ dataObj ∧
    FindTaggedName (some (.ptr 4096 structWithInline)) (some (.ptr 4096 deeperObj)) "json" =
      .ok ("data", none) := by
  refine ⟨rfl, rfl, ?_, rfl⟩
  simp [deeperObj, dataObj, structWithEmbedded, fieldB, fieldDeeper]

/-- C4 (as amended): for every record `R` at address `a` on which the walk under
`K` completes, and every non-nil pointer `P` whose address differs from the
address of every field the walk visits, `FindTaggedName(&R, P, K)` fails with
the error "could not find field value in struct" and returns the empty name. -/
theorem findTaggedName_not_found (tagName : String) (obj tgt : Obj) (a p : Nat)
    (vs : List Visit)
    (hWalk : WalkTaggedFields (.mk obj (some a)) recordVisits tagName [] = .ok vs)
    (hMiss : ∀ w ∈ vs, w.1.UnsafeAddr ≠ .ok p) :
    FindTaggedName (some (.ptr a obj)) (some (.ptr p tgt)) tagName =
      .ok ("", some "could not find field value in struct") :=
  findTaggedName_miss tagName obj tgt a p vs hWalk hMiss

/-- C4 (witness): a pointer to a variable outside `structWithEmbedded` is not
found under `json`. -/
theorem findTaggedName_not_found_witness :
    WalkTaggedFields (.mk structWithEmbedded (some 4096)) recordVisits "json" [] =
      .ok [(.mk (.leaf .Int) (some 4104), fieldA, "a")] ∧
    (∀ w ∈ [((.mk (.leaf .Int) (some 4104), fieldA, "a") : Visit)],
      w.1.UnsafeAddr ≠ .ok 8192) ∧
    FindTaggedName (some (.ptr 4096 structWithEmbedded)) (some (.ptr 8192 (.leaf .Int))) "json" =
      .ok ("", some "could not find field value in struct") :=
  ⟨rfl, by decide,
    findTaggedName_not_found "json" structWithEmbedded (.leaf .Int) 4096 8192
      [(.mk (.leaf .Int) (some 4104), fieldA, "a")] rfl (by decide)⟩

/-- C5 (counterexample): the embedded field of `structWithEmbedded` is a field
whose primary tag under `json` is empty, and the walk does not visit it; it
starts at the address of the field `A` spliced in from it, so
`FindTaggedName(&se, &se.embedded, "json")` returns "a" with no error and
`Tagged` returns "a" instead of panicking. -/
theorem findTaggedName_finds_untagged_field :
    structWithEmbedded =
      .struct (.cons fieldB (.leaf .Int) (.cons (fieldEmbedded []) embedded .nil)) ∧
    primaryTag ((fieldEmbedded []).Tag.Get "json") = "" ∧
    WalkTaggedFields (.mk structWithEmbedded (some 4096)) recordVisits "json" [] =
      .ok [(.mk (.leaf .Int) (some 4104), fieldA, "a")] ∧
    FindTaggedName (some (.ptr 4096 structWithEmbedded))
      (some (.ptr (4096 + (fieldEmbedded []).Offset) embedded)) "json" = .ok ("a", none) ∧
    Tagged (some (.ptr 4096 structWithEmbedded))
      (some (.ptr (4096 + (fieldEmbedded []).Offset) embedded)) "json" = .ok "a" :=
  ⟨rfl, rfl, rfl, rfl, rfl⟩

/-- C5 (as amended): for every record `R` at address `a` on which the walk under
`K` completes and every field `F` of `R` whose primary tag under `K` is empty or
"-", where no field the walk visits has the address of `F`,
the walk passes no field with the tag of `F`, `FindTaggedName(&R, &F, K)` fails
with the error "could not find field value in struct" and `Tagged(&R, &F, K)`
panics with that error; for all arguments,
`Tagged` returns a name exactly when `FindTaggedName` returns that name with no
error, and panics with the error that `FindTaggedName` returns. -/
theorem findTaggedName_untagged_field (tagName : String) (fields : Fields) (sf : StructField)
    (fobj : Obj) (a : Nat) (vs : List Visit)
    (_hField : (sf, fobj) ∈ Fields.toList fields)
    (hTag : primaryTag (sf.Tag.Get tagName) = "" ∨ primaryTag (sf.Tag.Get tagName) = "-")
    (hWalk : WalkTaggedFields (.mk (.struct fields) (some a)) recordVisits tagName [] = .ok vs)
    (hMiss : ∀ w ∈ vs, w.1.UnsafeAddr ≠ .ok (a + sf.Offset)) :
    (∀ w ∈ vs, w.2.2 ≠ primaryTag (sf.Tag.Get tagName)) ∧
    FindTaggedName (some (.ptr a (.struct fields))) (some (.ptr (a + sf.Offset) fobj)) tagName =
      .ok ("", some "could not find field value in struct") ∧
    Tagged (some (.ptr a (.struct fields))) (some (.ptr (a + sf.Offset) fobj)) tagName =
      .error "could not find field value in struct" ∧
    (∀ (structPtr fieldPtr : Option Obj) (key name : String),
      Tagged structPtr fieldPtr key = .ok name ↔
        FindTaggedName structPtr fieldPtr key = .ok (name, none)) ∧
    (∀ (structPtr fieldPtr : Option Obj) (key name err : String),
      FindTaggedName structPtr fieldPtr key = .ok (name, some err) →
        Tagged structPtr fieldPtr key = .error err) := by
  have h1 := findTaggedName_miss tagName (.struct fields) fobj a (a + sf.Offset) vs hWalk hMiss
  refine ⟨?_, h1, tagged_of_error _ _ _ _ _ h1, tagged_ok_iff, tagged_of_error⟩
  obtain ⟨_, hvs⟩ := visits_of_walk_ok tagName (.struct fields) (some a) vs hWalk
  intro w hw hEq
  have hq := visitsObj_tag tagName (.struct fields) (some a) w (hvs ▸ hw)
  rcases hTag with h | h
  · exact hq.1 (hEq.trans h)
  · exact hq.2 (hEq.trans h)

/-- C5 (witness): the field `B` of `structWithEmbedded` is tagged "-" under
`json`, no visited field has its address, and `Tagged(&se, &se.B, "json")`
panics, as `TestFindTaggedName` asserts. -/
theorem findTaggedName_untagged_field_witness :
    (fieldB, Obj.leaf .Int) ∈
      Fields.toList (.cons fieldB (.leaf .Int) (.cons (fieldEmbedded []) embedded .nil)) ∧
    (primaryTag (fieldB.Tag.Get "json") = "" ∨ primaryTag (fieldB.Tag.Get "json") = "-") ∧
    Tagged (some (.ptr 4096 structWithEmbedded)) (some (.ptr (4096 + fieldB.Offset) (.leaf .Int)))
      "json" = .error "could not find field value in struct" :=
  ⟨by simp [Fields.toList], Or.inr rfl,
    (findTaggedName_untagged_field "json"
      (.cons fieldB (.leaf .Int) (.cons (fieldEmbedded []) embedded .nil)) fieldB (.leaf .Int) 4096
      [(.mk (.leaf .Int) (some 4104), fieldA, "a")] (by simp [Fields.toList]) (Or.inr rfl) rfl
      (by decide)).2.2.1⟩

/-- C6 (counterexample): for a pointer to an integer as `structPtr` and a valid
field pointer, `FindTaggedName` fails with the error of a field not found, which
is neither of the two errors for an invalid argument. -/
theorem findTaggedName_pointer_to_int :
    FindTaggedName (some (.ptr 4096 (.leaf .Int))) (some (.ptr 8192 (.leaf .Int))) "json" =
      .ok ("", some "could not find field value in struct") ∧
    errNotFound ≠ errRequired ∧ errNotFound ≠ errCanNotAddr := by
  refine ⟨rfl, ?_, ?_⟩ <;> decide

/-- C6 (as amended): `FindTaggedName` fails with the error "structPtr and fieldPtr
are required" whenever `structPtr` or `fieldPtr` is nil, and with the error "can
not take address of structure, please pass a pointer" whenever `fieldPtr` is not
nil and `structPtr` is a value that is not a pointer (a record passed by value
among them) or a nil typed pointer; for a pointer to a value that is neither a
pointer nor a record, such as an integer, and a non-nil field pointer it fails
with the error "could not find field value in struct". -/
theorem findTaggedName_invalid_argument :
    (∀ (fieldPtr : Option Obj) (key : String),
      FindTaggedName none fieldPtr key = .ok ("", some "structPtr and fieldPtr are required")) ∧
    (∀ (structPtr : Option Obj) (key : String),
      FindTaggedName structPtr none key = .ok ("", some "structPtr and fieldPtr are required")) ∧
    (∀ (fields : Fields) (fieldPtr : Obj) (key : String),
      FindTaggedName (some (.struct fields)) (some fieldPtr) key =
        .ok ("", some "can not take address of structure, please pass a pointer")) ∧
    (∀ (k : LeafKind) (fieldPtr : Obj) (key : String),
      FindTaggedName (some (.leaf k)) (some fieldPtr) key =
        .ok ("", some "can not take address of structure, please pass a pointer")) ∧
    (∀ (elem : GoType) (fieldPtr : Obj) (key : String),
      FindTaggedName (some (.nilPtr elem)) (some fieldPtr) key =
        .ok ("", some "can not take address of structure, please pass a pointer")) ∧
    (∀ (k : LeafKind) (a p : Nat) (tgt : Obj) (key : String),
      FindTaggedName (some (.ptr a (.leaf k))) (some (.ptr p tgt)) key =
        .ok ("", some "could not find field value in struct")) := by
  refine ⟨?_, ?_, ?_, ?_, ?_, ?_⟩
  · intro fieldPtr key
    rfl
  · intro structPtr key
    cases structPtr <;> rfl
  · intro fields fieldPtr key
    rfl
  · intro k fieldPtr key
    rfl
  · intro elem fieldPtr key
    rfl
  · intro k a p tgt key
    rfl

/-! ## The populator: the type switch on one field -/

theorem readField_absent {F : Type} (sc : Strconv F) (fieldTag : StructTag) (key : String)
    (fld : DestField F) (h : fieldTag.Lookup key = none) :
    readField sc fieldTag key fld = (fld, none) := by
  obtain ⟨name, pkg, val⟩ := fld
  cases val <;>
    simp [readField, ReadStringTag, ReadStringPtrTag, ReadIntTag, ReadIntPtrTag, ReadFloatTag,
      ReadFloatPtrTag, ReadBoolTag, ReadBoolPtrTag, h]

theorem readField_lookup_congr {F : Type} (sc : Strconv F) (tag1 tag2 : StructTag) (key : String)
    (fld : DestField F) (h : tag1.Lookup key = tag2.Lookup key) :
    readField sc tag1 key fld = readField sc tag2 key fld := by
  obtain ⟨name, pkg, val⟩ := fld
  cases val <;>
    simp [readField, ReadStringTag, ReadStringPtrTag, ReadIntTag, ReadIntPtrTag, ReadFloatTag,
      ReadFloatPtrTag, ReadBoolTag, ReadBoolPtrTag, h]

theorem readField_name {F : Type} (sc : Strconv F) (fieldTag : StructTag) (key : String)
    (fld : DestField F) :
    (readField sc fieldTag key fld).1.Name = fld.Name ∧
      (readField sc fieldTag key fld).1.PkgPath = fld.PkgPath := by
  obtain ⟨name, pkg, val⟩ := fld
  cases val <;> simp [readField]
  split <;> simp

theorem readField_idem {F : Type} (sc : Strconv F) (fieldTag : StructTag) (key : String)
    (fld : DestField F)
    (hNoDash : ((∃ cur, fld.val = .string cur) ∨ (∃ p, fld.val = .stringPtr p)) →
      fieldTag.Lookup key ≠ some "-") :
    readField sc fieldTag key (readField sc fieldTag key fld).1 = readField sc fieldTag key fld := by
  obtain ⟨name, pkg, val⟩ := fld
  cases hl : fieldTag.Lookup key with
  | none => simp [readField_absent sc fieldTag key _ hl]
  | some raw =>
    cases val with
    | string cur =>
      have hr : raw ≠ "-" := by
        intro h
        exact hNoDash (Or.inl ⟨cur, rfl⟩) (by rw [hl, h])
      simp [readField, ReadStringTag, hl, hr]
    | stringPtr p =>
      have hr : raw ≠ "-" := by
        intro h
        exact hNoDash (Or.inr ⟨p, rfl⟩) (by rw [hl, h])
      cases p <;> simp [readField, ReadStringPtrTag, hl, hr]
    | int64 n => cases hp : sc.ParseInt raw <;> simp [readField, ReadIntTag, hl, hp]
    | int64Ptr p => cases hp : sc.ParseInt raw <;> simp [readField, ReadIntPtrTag, hl, hp]
    | float64 x => cases hp : sc.ParseFloat raw <;> simp [readField, ReadFloatTag, hl, hp]
    | float64Ptr p => cases hp : sc.ParseFloat raw <;> simp [readField, ReadFloatPtrTag, hl, hp]
    | bool b => cases hp : sc.ParseBool raw <;> simp [readField, ReadBoolTag, hl, hp]
    | boolPtr p => cases hp : sc.ParseBool raw <;> simp [readField, ReadBoolPtrTag, hl, hp]
    | other => simp [readField]

theorem readField_error_iff {F : Type} (sc : Strconv F) (fieldTag : StructTag) (key : String)
    (fld : DestField F) :
    (readField sc fieldTag key fld).2 ≠ none ↔
      (match fieldTag.Lookup key with
        | none => false
        | some raw =>
          match fld.val with
          | .int64 _ => failed (sc.ParseInt raw)
          | .int64Ptr _ => failed (sc.ParseInt raw)
          | .float64 _ => failed (sc.ParseFloat raw)
          | .float64Ptr _ => failed (sc.ParseFloat raw)
          | .bool _ => failed (sc.ParseBool raw)
          | .boolPtr _ => failed (sc.ParseBool raw)
          | _ => false) = true := by
  unfold readField
  cases hv : fld.val <;> cases hl : fieldTag.Lookup key <;>
    simp only [ReadStringTag, ReadStringPtrTag, ReadIntTag, ReadIntPtrTag, ReadFloatTag,
      ReadFloatPtrTag, ReadBoolTag, ReadBoolPtrTag, hl, failed] <;>
    (try split) <;> simp_all

/-! ## The populator: the derived key -/

theorem lookupDerived_of_key (fieldTag : StructTag) (name key : String)
    (h : tagNameOf name = some key) : lookupDerived fieldTag name = fieldTag.Lookup key := by
  simp [lookupDerived, h]

theorem lookupDerived_of_no_key (fieldTag : StructTag) (name : String)
    (h : tagNameOf name = none) : lookupDerived fieldTag name = none := by
  simp [lookupDerived, h]

theorem tagNameOf_ascii (c : Char) (cs : List Char) (h : c.toNat < 128) :
    tagNameOf (String.mk (c :: cs)) = some (String.mk (c.toLower :: cs)) := by
  simp [tagNameOf, h]

theorem tagNameOf_not_ascii (c : Char) (cs : List Char) (h : ¬ c.toNat < 128) :
    tagNameOf (String.mk (c :: cs)) = none := by
  simp [tagNameOf, h]

theorem readDerived_of_key {F : Type} (sc : Strconv F) (fieldTag : StructTag)
    (fld : DestField F) (key : String) (h : tagNameOf fld.Name = some key) :
    readDerived sc fieldTag fld = readField sc fieldTag key fld := by
  simp [readDerived, h]

theorem readDerived_absent {F : Type} (sc : Strconv F) (fieldTag : StructTag)
    (fld : DestField F) (h : lookupDerived fieldTag fld.Name = none) :
    readDerived sc fieldTag fld = (fld, none) := by
  cases hk : tagNameOf fld.Name with
  | none => simp [readDerived, hk]
  | some key =>
    rw [lookupDerived_of_key fieldTag fld.Name key hk] at h
    rw [readDerived_of_key sc fieldTag fld key hk, readField_absent sc fieldTag key fld h]

theorem readDerived_lookup_congr {F : Type} (sc : Strconv F) (tag1 tag2 : StructTag)
    (fld : DestField F) (h : lookupDerived tag1 fld.Name = lookupDerived tag2 fld.Name) :
    readDerived sc tag1 fld = readDerived sc tag2 fld := by
  cases hk : tagNameOf fld.Name with
  | none => simp [readDerived, hk]
  | some key =>
    rw [lookupDerived_of_key tag1 fld.Name key hk, lookupDerived_of_key tag2 fld.Name key hk] at h
    rw [readDerived_of_key sc tag1 fld key hk, readDerived_of_key sc tag2 fld key hk,
      readField_lookup_congr sc tag1 tag2 key fld h]

theorem readDerived_name {F : Type} (sc : Strconv F) (fieldTag : StructTag) (fld : DestField F) :
    (readDerived sc fieldTag fld).1.Name = fld.Name ∧
      (readDerived sc fieldTag fld).1.PkgPath = fld.PkgPath := by
  cases hk : tagNameOf fld.Name with
  | none => simp [readDerived, hk]
  | some key =>
    rw [readDerived_of_key sc fieldTag fld key hk]
    exact readField_name sc fieldTag key fld

theorem readDerived_idem {F : Type} (sc : Strconv F) (fieldTag : StructTag) (fld : DestField F)
    (hNoDash : ((∃ cur, fld.val = .string cur) ∨ (∃ p, fld.val = .stringPtr p)) →
      lookupDerived fieldTag fld.Name ≠ some "-") :
    readDerived sc fieldTag (readDerived sc fieldTag fld).1 = readDerived sc fieldTag fld := by
  cases hk : tagNameOf fld.Name with
  | none => simp [readDerived, hk]
  | some key =>
    rw [lookupDerived_of_key fieldTag fld.Name key hk] at hNoDash
    have hk2 : tagNameOf (readField sc fieldTag key fld).1.Name = some key := by
      rw [(readField_name sc fieldTag key fld).1]
      exact hk
    rw [readDerived_of_key sc fieldTag fld key hk,
      readDerived_of_key sc fieldTag _ key hk2]
    exact readField_idem sc fieldTag key fld hNoDash

theorem readDerived_error_iff {F : Type} (sc : Strconv F) (fieldTag : StructTag)
    (fld : DestField F) :
    (readDerived sc fieldTag fld).2 ≠ none ↔ failsToParse sc fieldTag fld = true := by
  cases hk : tagNameOf fld.Name with
  | none => simp [readDerived, failsToParse, lookupDerived, hk]
  | some key =>
    rw [readDerived_of_key sc fieldTag fld key hk, readField_error_iff]
    simp only [failsToParse, lookupDerived, hk]

/-! ## The populator: the loop and the joined error -/

theorem populateLoop_exported {F : Type} (sc : Strconv F) (fieldTag : StructTag) :
    ∀ (dest : List (DestField F)) (errs : List String), (∀ fld ∈ dest, fld.PkgPath = "") →
      populateLoop sc fieldTag dest errs =
        .ok (dest.map (fun fld => (readDerived sc fieldTag fld).1),
          errs ++ fieldMessages sc fieldTag dest)
  | [], errs, _ => by simp [populateLoop, fieldMessages]
  | fld :: rest, errs, h => by
    have hfld : fld.PkgPath = "" := h fld (List.mem_cons_self _ _)
    have hrest : ∀ x ∈ rest, x.PkgPath = "" := fun x hx => h x (List.mem_cons_of_mem _ hx)
    simp only [populateLoop, populateField, hfld, ne_eq, not_true_eq_false, if_false]
    rw [populateLoop_exported sc fieldTag rest _ hrest]
    cases hErr : (readDerived sc fieldTag fld).2 with
    | none => simp [fieldMessages, List.filterMap_cons, hErr]
    | some e => simp [fieldMessages, List.filterMap_cons, hErr]

theorem populate_exported {F : Type} (sc : Strconv F) (fieldTag : StructTag)
    (dest : List (DestField F)) (h : ∀ fld ∈ dest, fld.PkgPath = "") :
    PopulateFieldsFromTags sc dest fieldTag =
      .ok (dest.map (fun fld => (readDerived sc fieldTag fld).1),
        JoinErrors ((fieldMessages sc fieldTag dest).map some)) := by
  simp [PopulateFieldsFromTags, populateLoop_exported sc fieldTag dest [] h]

theorem populateLoop_unexported {F : Type} (sc : Strconv F) (fieldTag : StructTag) :
    ∀ (dest : List (DestField F)) (errs : List String), (∃ fld ∈ dest, fld.PkgPath ≠ "") →
      populateLoop sc fieldTag dest errs = .error errInterface
  | [], _, h => by simp at h
  | fld :: rest, errs, h => by
    by_cases hfld : fld.PkgPath = ""
    · have hrest : ∃ x ∈ rest, x.PkgPath ≠ "" := by
        obtain ⟨x, hx, hne⟩ := h
        rcases List.mem_cons.mp hx with h1 | h2
        · exact absurd (h1 ▸ hfld) hne
        · exact ⟨x, h2, hne⟩
      simp only [populateLoop, populateField, hfld, ne_eq, not_true_eq_false, if_false]
      rw [populateLoop_unexported sc fieldTag rest _ hrest]
    · simp [populateLoop, populateField, hfld]

theorem populate_unexported {F : Type} (sc : Strconv F) (fieldTag : StructTag)
    (dest : List (DestField F)) (h : ∃ fld ∈ dest, fld.PkgPath ≠ "") :
    PopulateFieldsFromTags sc dest fieldTag = .error errInterface := by
  simp [PopulateFieldsFromTags, populateLoop_unexported sc fieldTag dest [] h]

theorem joinLoop_skip (join : String) (errs : List (Option String)) :
    joinLoop join errs = joinLoop join ((errs.filterMap id).map some) := by
  induction errs generalizing join with
  | nil => rfl
  | cons e rest ih =>
    cases e with
    | none => simpa [joinLoop] using ih join
    | some msg => simpa [joinLoop] using ih (join ++ ", " ++ msg)

theorem joinLoop_shift (x : String) (msgs : List String) :
    joinLoop (", " ++ x) (msgs.map some) = ", " ++ String.intercalate.go x ", " msgs := by
  induction msgs generalizing x with
  | nil => simp [joinLoop, String.intercalate.go]
  | cons m rest ih =>
    simp only [List.map_cons, joinLoop, String.intercalate.go]
    rw [String.append_assoc, String.append_assoc, ← String.append_assoc x, ih]

theorem joinLoop_messages (m : String) (rest : List String) :
    joinLoop "" ((m :: rest).map some) = ", " ++ ", ".intercalate (m :: rest) := by
  simp only [List.map_cons, joinLoop, String.intercalate]
  have h : "" ++ ", " ++ m = ", " ++ m := by simp
  rw [h, joinLoop_shift]

theorem sliceFrom_separator (x : String) : sliceFrom (", " ++ x) 2 = x := by
  simp [sliceFrom, String.data_append]

theorem separator_append_ne_empty (x : String) : ", " ++ x ≠ "" := by
  intro h
  have h2 := congrArg String.data h
  simp [String.data_append] at h2

theorem joinErrors_messages (msgs : List String) :
    JoinErrors (msgs.map some) =
      if msgs = [] then none else some (", ".intercalate msgs) := by
  cases msgs with
  | nil => simp [JoinErrors, joinLoop]
  | cons m rest =>
    simp only [JoinErrors, joinLoop_messages, sliceFrom_separator, reduceCtorEq, if_false]
    simp [separator_append_ne_empty]

theorem joinErrors_skip (errs : List (Option String)) :
    JoinErrors errs = JoinErrors ((errs.filterMap id).map some) := by
  simp only [JoinErrors]
  rw [← joinLoop_skip]

theorem fieldMessages_ne_nil_iff {F : Type} (sc : Strconv F) (fieldTag : StructTag)
    (dest : List (DestField F)) :
    fieldMessages sc fieldTag dest ≠ [] ↔ ∃ fld ∈ dest, failsToParse sc fieldTag fld = true := by
  induction dest with
  | nil => simp [fieldMessages]
  | cons fld rest ih =>
    have hiff := readDerived_error_iff sc fieldTag fld
    simp only [fieldMessages] at ih
    cases hErr : (readDerived sc fieldTag fld).2 with
    | none =>
      have hno : failsToParse sc fieldTag fld ≠ true := by
        intro hf
        exact (hiff.mpr hf) hErr
      simp only [fieldMessages, List.filterMap_cons, hErr, ih, List.mem_cons, exists_eq_or_imp]
      simp [hno]
    | some e =>
      have hyes : failsToParse sc fieldTag fld = true := by
        apply hiff.mp
        simp [hErr]
      simp [fieldMessages, List.filterMap_cons, hErr, hyes]

theorem populate_field_at {F : Type} (sc : Strconv F) (fieldTag : StructTag)
    (dest : List (DestField F)) (i : Nat) (fld : DestField F)
    (hExp : ∀ f ∈ dest, f.PkgPath = "") (hi : dest[i]? = some fld) :
    ∃ now err, PopulateFieldsFromTags sc dest fieldTag = .ok (now, err) ∧
      now[i]? = some (readDerived sc fieldTag fld).1 ∧
      populateField sc fieldTag fld = .ok (readDerived sc fieldTag fld) ∧
      ((readDerived sc fieldTag fld).2 ≠ none → err ≠ none) := by
  have hmem : fld ∈ dest := List.mem_iff_getElem?.mpr ⟨i, hi⟩
  refine ⟨_, _, populate_exported sc fieldTag dest hExp, ?_, ?_, ?_⟩
  · simp [List.getElem?_map, hi]
  · simp [populateField, hExp fld hmem]
  · intro hErr
    have hne : fieldMessages sc fieldTag dest ≠ [] :=
      (fieldMessages_ne_nil_iff sc fieldTag dest).mpr
        ⟨fld, hmem, (readDerived_error_iff sc fieldTag fld).mp hErr⟩
    rw [joinErrors_messages]
    simp [hne]

theorem populate_split {F : Type} (sc : Strconv F) (fieldTag : StructTag)
    (pre post : List (DestField F)) (fld : DestField F)
    (hExp : ∀ f ∈ pre ++ fld :: post, f.PkgPath = "")
    (hRead : readDerived sc fieldTag fld = (fld, none)) :
    ∃ nowPre nowPost err,
      PopulateFieldsFromTags sc (pre ++ fld :: post) fieldTag =
        .ok (nowPre ++ fld :: nowPost, err) ∧
      nowPre.length = pre.length ∧
      PopulateFieldsFromTags sc (pre ++ post) fieldTag = .ok (nowPre ++ nowPost, err) := by
  have hExp2 : ∀ f ∈ pre ++ post, f.PkgPath = "" := by
    intro f hf
    apply hExp f
    rcases List.mem_append.mp hf with h | h
    · exact List.mem_append_left _ h
    · exact List.mem_append_right _ (List.mem_cons_of_mem _ h)
  refine ⟨pre.map (fun f => (readDerived sc fieldTag f).1),
    post.map (fun f => (readDerived sc fieldTag f).1),
    JoinErrors ((fieldMessages sc fieldTag (pre ++ post)).map some), ?_, by simp, ?_⟩
  · rw [populate_exported sc fieldTag _ hExp]
    simp [fieldMessages, List.filterMap_append, List.filterMap_cons, hRead]
  · rw [populate_exported sc fieldTag _ hExp2]
    simp

/-! ## The populator: the destination after the call -/

theorem populateField_idem {F : Type} (sc : Strconv F) (fieldTag : StructTag)
    (fld now : DestField F) (err : Option String)
    (hNoDash : ((∃ cur, fld.val = .string cur) ∨ (∃ p, fld.val = .stringPtr p)) →
      lookupDerived fieldTag fld.Name ≠ some "-")
    (h : populateField sc fieldTag fld = .ok (now, err)) :
    populateField sc fieldTag now = .ok (now, err) := by
  by_cases hfld : fld.PkgPath = ""
  · simp only [populateField, hfld, ne_eq, not_true_eq_false, if_false, Except.ok.injEq] at h
    have hnow : now = (readDerived sc fieldTag fld).1 := by rw [h]
    have hpkg : now.PkgPath = "" := by
      rw [hnow, (readDerived_name sc fieldTag fld).2]
      exact hfld
    simp only [populateField, hpkg, ne_eq, not_true_eq_false, if_false, Except.ok.injEq]
    rw [hnow, readDerived_idem sc fieldTag fld hNoDash, h]
  · simp [populateField, hfld] at h

theorem populateState_idem {F : Type} (sc : Strconv F) (fieldTag : StructTag) :
    ∀ (dest : List (DestField F)),
      (∀ f ∈ dest, ((∃ cur, f.val = .string cur) ∨ (∃ p, f.val = .stringPtr p)) →
        lookupDerived fieldTag f.Name ≠ some "-") →
      populateState sc fieldTag (populateState sc fieldTag dest) = populateState sc fieldTag dest
  | [], _ => by simp [populateState]
  | fld :: rest, h => by
    have hrest := populateState_idem sc fieldTag rest
      (fun f hf => h f (List.mem_cons_of_mem _ hf))
    cases hp : populateField sc fieldTag fld with
    | error e => simp [populateState, hp]
    | ok r =>
      obtain ⟨now, err⟩ := r
      have hp2 := populateField_idem sc fieldTag fld now err (h fld (List.mem_cons_self _ _)) hp
      simp [populateState, hp, hp2, hrest]

theorem populateLoop_state {F : Type} (sc : Strconv F) (fieldTag : StructTag) :
    ∀ (dest : List (DestField F)) (errs : List String),
      (∀ f ∈ dest, ((∃ cur, f.val = .string cur) ∨ (∃ p, f.val = .stringPtr p)) →
        lookupDerived fieldTag f.Name ≠ some "-") →
      populateLoop sc fieldTag (populateState sc fieldTag dest) errs =
        populateLoop sc fieldTag dest errs
  | [], _, _ => by simp [populateState]
  | fld :: rest, errs, h => by
    have hrest := fun errs1 => populateLoop_state sc fieldTag rest errs1
      (fun f hf => h f (List.mem_cons_of_mem _ hf))
    cases hp : populateField sc fieldTag fld with
    | error e => simp [populateState, hp]
    | ok r =>
      obtain ⟨now, err⟩ := r
      have hp2 := populateField_idem sc fieldTag fld now err (h fld (List.mem_cons_self _ _)) hp
      simp [populateState, populateLoop, hp, hp2, hrest]

theorem populateState_of_loop {F : Type} (sc : Strconv F) (fieldTag : StructTag) :
    ∀ (dest : List (DestField F)) (errs : List String) (now : List (DestField F))
      (errsNow : List String),
      populateLoop sc fieldTag dest errs = .ok (now, errsNow) →
      populateState sc fieldTag dest = now
  | [], errs, now, errsNow, h => by
    simp only [populateLoop, Except.ok.injEq, Prod.mk.injEq] at h
    simp [populateState, h.1]
  | fld :: rest, errs, now, errsNow, h => by
    simp only [populateLoop] at h
    cases hp : populateField sc fieldTag fld with
    | error e => simp [hp] at h
    | ok r =>
      obtain ⟨fnow, err⟩ := r
      simp only [hp] at h
      split at h
      · simp at h
      · rename_i restNow errs2 hl
        simp only [Except.ok.injEq, Prod.mk.injEq] at h
        have ih := populateState_of_loop sc fieldTag rest _ restNow errs2 hl
        simp [populateState, hp, ih, h.1]

theorem populateState_of_ok {F : Type} (sc : Strconv F) (fieldTag : StructTag)
    (dest now : List (DestField F)) (err : Option String)
    (h : PopulateFieldsFromTags sc dest fieldTag = .ok (now, err)) :
    populateState sc fieldTag dest = now := by
  simp only [PopulateFieldsFromTags] at h
  cases hl : populateLoop sc fieldTag dest [] with
  | error e => simp [hl] at h
  | ok r =>
    obtain ⟨n, errs⟩ := r
    simp only [hl, Except.ok.injEq, Prod.mk.injEq] at h
    rw [← h.1]
    exact populateState_of_loop sc fieldTag dest [] n errs hl

theorem populate_state_again {F : Type} (sc : Strconv F) (fieldTag : StructTag)
    (dest : List (DestField F))
    (hNoDash : ∀ f ∈ dest, ((∃ cur, f.val = .string cur) ∨ (∃ p, f.val = .stringPtr p)) →
      lookupDerived fieldTag f.Name ≠ some "-") :
    PopulateFieldsFromTags sc (populateState sc fieldTag dest) fieldTag =
      PopulateFieldsFromTags sc dest fieldTag := by
  simp only [PopulateFieldsFromTags, populateLoop_state sc fieldTag dest [] hNoDash]

theorem lookupDerived_some (fieldTag : StructTag) (name raw : String)
    (h : lookupDerived fieldTag name = some raw) :
    ∃ key, tagNameOf name = some key ∧ fieldTag.Lookup key = some raw := by
  cases hk : tagNameOf name with
  | none => simp [lookupDerived, hk] at h
  | some key => exact ⟨key, rfl, by simpa [lookupDerived, hk] using h⟩

/-- The destination `struct { Éa string }`: the key derived from the name is not
text, so neither `éa` nor `Éa` in the bundle reaches the field. -/
theorem populate_accented_name :
    tagNameOf "Éa" = none ∧
    PopulateFieldsFromTags sampleStrconv accentedSchema [("éa", "lower"), ("Éa", "upper")] =
      .ok ([⟨"Éa", "", .string ""⟩], none) :=
  ⟨rfl, rfl⟩

/-! ## The claims on the populator -/

/-- C7 (counterexample): in the destination `struct { limit int64 }` the derived
key `limit` is present with the raw value "5", which parses to 5; `Interface()`
panics on the unexported field, the call returns nothing and the field
still holds 0. -/
theorem populate_parsed_field_unexported :
    lookupDerived [("limit", "5")] "limit" = some "5" ∧
    sampleStrconv.ParseInt "5" = .ok 5 ∧
    PopulateFieldsFromTags sampleStrconv hiddenLimit [("limit", "5")] =
      .error "reflect.Value.Interface: cannot return value obtained from unexported field or method" ∧
    populateState sampleStrconv [("limit", "5")] hiddenLimit = [⟨"limit", testPkg, .int64 0⟩] :=
  ⟨rfl, rfl, rfl, rfl⟩

/-- C7 (as amended): in a destination struct whose fields are all exported, for
every field of kind int64, float64, bool or their pointer variants whose
derived key is present in the bundle with raw value `raw`: when `raw` fails to
parse, the iteration of the loop for the field yields an error,
`PopulateFieldsFromTags` returns an error, and the field afterwards is exactly
the field before; when `raw` parses to `v`, the field afterwards holds `v` (a
non-nil pointer to `v` for a pointer field). The derived key is the one the
code derives: the name with its first character in lower case when that
character is ASCII, and no key of a bundle otherwise. -/
theorem populate_parsed_field {F : Type} (sc : Strconv F) (fieldTag : StructTag)
    (dest : List (DestField F)) (i : Nat) (fld : DestField F) (raw : String)
    (hExp : ∀ f ∈ dest, f.PkgPath = "") (hi : dest[i]? = some fld)
    (hRaw : lookupDerived fieldTag fld.Name = some raw) :
    ∃ now err, PopulateFieldsFromTags sc dest fieldTag = .ok (now, err) ∧
      match fld.val with
      | .int64 _ =>
        (∀ e, sc.ParseInt raw = .error e →
          now[i]? = some fld ∧ err ≠ none ∧ ∃ msg, populateField sc fieldTag fld = .ok (fld, some msg)) ∧
        (∀ v, sc.ParseInt raw = .ok v → now[i]? = some { fld with val := .int64 v })
      | .int64Ptr _ =>
        (∀ e, sc.ParseInt raw = .error e →
          now[i]? = some fld ∧ err ≠ none ∧ ∃ msg, populateField sc fieldTag fld = .ok (fld, some msg)) ∧
        (∀ v, sc.ParseInt raw = .ok v → now[i]? = some { fld with val := .int64Ptr (some v) })
      | .float64 _ =>
        (∀ e, sc.ParseFloat raw = .error e →
          now[i]? = some fld ∧ err ≠ none ∧ ∃ msg, populateField sc fieldTag fld = .ok (fld, some msg)) ∧
        (∀ v, sc.ParseFloat raw = .ok v → now[i]? = some { fld with val := .float64 v })
      | .float64Ptr _ =>
        (∀ e, sc.ParseFloat raw = .error e →
          now[i]? = some fld ∧ err ≠ none ∧ ∃ msg, populateField sc fieldTag fld = .ok (fld, some msg)) ∧
        (∀ v, sc.ParseFloat raw = .ok v → now[i]? = some { fld with val := .float64Ptr (some v) })
      | .bool _ =>
        (∀ e, sc.ParseBool raw = .error e →
          now[i]? = some fld ∧ err ≠ none ∧ ∃ msg, populateField sc fieldTag fld = .ok (fld, some msg)) ∧
        (∀ v, sc.ParseBool raw = .ok v → now[i]? = some { fld with val := .bool v })
      | .boolPtr _ =>
        (∀ e, sc.ParseBool raw = .error e →
          now[i]? = some fld ∧ err ≠ none ∧ ∃ msg, populateField sc fieldTag fld = .ok (fld, some msg)) ∧
        (∀ v, sc.ParseBool raw = .ok v → now[i]? = some { fld with val := .boolPtr (some v) })
      | _ => True := by
  obtain ⟨now, err, hPop, hNow, hField, hErr⟩ := populate_field_at sc fieldTag dest i fld hExp hi
  obtain ⟨key, hKey, hLook⟩ := lookupDerived_some fieldTag fld.Name raw hRaw
  rw [readDerived_of_key sc fieldTag fld key hKey] at hNow hField hErr
  refine ⟨now, err, hPop, ?_⟩
  obtain ⟨name, pkg, val⟩ := fld
  cases val <;> simp only [] <;> try trivial
  all_goals
    refine ⟨fun e he => ?_, fun v hv => ?_⟩
    · simp only [readField, ReadIntTag, ReadIntPtrTag, ReadFloatTag, ReadFloatPtrTag,
        ReadBoolTag, ReadBoolPtrTag, hLook, he] at hNow hField hErr
      exact ⟨hNow, hErr (by simp), _, hField⟩
    · simpa only [readField, ReadIntTag, ReadIntPtrTag, ReadFloatTag, ReadFloatPtrTag,
        ReadBoolTag, ReadBoolPtrTag, hLook, hv] using hNow

/-- C7 (witness): the field `Limit int64` holding 7 with the bundle
`limit:"abc"`: the value fails to parse, the field still holds 7 and an error
is returned. -/
theorem populate_parsed_field_witness :
    (∀ f ∈ [(⟨"Limit", "", .int64 7⟩ : DestField Decimal)], f.PkgPath = "") ∧
    [(⟨"Limit", "", .int64 7⟩ : DestField Decimal)][0]? = some ⟨"Limit", "", .int64 7⟩ ∧
    lookupDerived [("limit", "abc")] "Limit" = some "abc" ∧
    ∃ now err, PopulateFieldsFromTags sampleStrconv [⟨"Limit", "", .int64 7⟩]
        [("limit", "abc")] = .ok (now, err) ∧
      now[0]? = some ⟨"Limit", "", .int64 7⟩ ∧ err ≠ none := by
  refine ⟨by simp, rfl, rfl, ?_⟩
  obtain ⟨now, err, hPop, hCase⟩ :=
    populate_parsed_field sampleStrconv [("limit", "abc")] [⟨"Limit", "", .int64 7⟩] 0
      ⟨"Limit", "", .int64 7⟩ "abc" (by simp) rfl rfl
  obtain ⟨hSame, hErr, _⟩ := hCase.1 _ rfl
  exact ⟨now, err, hPop, hSame, hErr⟩

/-- C8 (counterexample): in the destination `struct { Limit int64; cache
map[string]int }` with the bundle `limit:"abc"` the present raw value of
`Limit` fails to parse, yet `PopulateFieldsFromTags` returns no error: it
panics in `Interface()` on the unexported field. -/
theorem populate_panics_instead_of_error :
    failsToParse sampleStrconv [("limit", "abc")] ⟨"Limit", "", .int64 0⟩ = true ∧
    PopulateFieldsFromTags sampleStrconv limitWithCache [("limit", "abc")] =
      .error "reflect.Value.Interface: cannot return value obtained from unexported field or method" :=
  ⟨rfl, rfl⟩

/-- C8 (as amended): for a destination struct whose fields are all exported,
`PopulateFieldsFromTags` returns an error if and only if the present raw value
of at least one field fails to parse; the error is `JoinErrors` of the
per-field results, and when there is one its message is the messages of the
failing fields in the order of declaration joined by ", "; a field whose
derived key is absent from the bundle does not fail and has no message, and a
bundle in which no field fails yields no error. The derived key is the one
the code derives: the name with its first character in lower case when that
character is ASCII, and no key of a bundle otherwise. -/
theorem populate_error_iff {F : Type} (sc : Strconv F) (fieldTag : StructTag)
    (dest : List (DestField F)) (hExp : ∀ f ∈ dest, f.PkgPath = "") :
    ∃ now err, PopulateFieldsFromTags sc dest fieldTag = .ok (now, err) ∧
      (err ≠ none ↔ ∃ fld ∈ dest, failsToParse sc fieldTag fld = true) ∧
      err = JoinErrors (dest.map (fun fld => (readDerived sc fieldTag fld).2)) ∧
      (err ≠ none → err = some (", ".intercalate (fieldMessages sc fieldTag dest))) ∧
      (∀ fld ∈ dest, ((readDerived sc fieldTag fld).2 ≠ none ↔
        failsToParse sc fieldTag fld = true)) ∧
      (∀ fld ∈ dest, lookupDerived fieldTag fld.Name = none →
        failsToParse sc fieldTag fld = false ∧
        (readDerived sc fieldTag fld).2 = none) ∧
      ((∀ fld ∈ dest, failsToParse sc fieldTag fld = false) → err = none) := by
  have hIff := fieldMessages_ne_nil_iff sc fieldTag dest
  have hAbsent : ∀ fld ∈ dest, lookupDerived fieldTag fld.Name = none →
      failsToParse sc fieldTag fld = false := by
    intro fld _ hl
    simp [failsToParse, hl]
  refine ⟨_, _, populate_exported sc fieldTag dest hExp, ?_, ?_, ?_, ?_, ?_, ?_⟩
  · rw [joinErrors_messages, ← hIff]
    by_cases h : fieldMessages sc fieldTag dest = [] <;> simp [h]
  · rw [joinErrors_skip (dest.map _)]
    simp [fieldMessages, List.filterMap_map, Function.comp_def]
  · intro _
    rw [joinErrors_messages]
    by_cases h : fieldMessages sc fieldTag dest = []
    · have hnil : JoinErrors ((fieldMessages sc fieldTag dest).map some) = none := by
        rw [joinErrors_messages]
        simp [h]
      contradiction
    · simp [h]
  · intro fld _
    exact readDerived_error_iff sc fieldTag fld
  · intro fld hmem hl
    refine ⟨hAbsent fld hmem hl, ?_⟩
    by_contra hne
    have := (readDerived_error_iff sc fieldTag fld).mp hne
    rw [hAbsent fld hmem hl] at this
    exact Bool.false_ne_true this
  · intro hAll
    rw [joinErrors_messages]
    have hnil : fieldMessages sc fieldTag dest = [] := by
      by_contra hne
      obtain ⟨fld, hmem, hf⟩ := hIff.mp hne
      rw [hAll fld hmem] at hf
      exact Bool.false_ne_true hf
    simp [hnil]

/-- C8 (witness): the test type `schema` has exported fields only; with the
bundle of the test the populator returns no error, and with a malformed
`limit` and a malformed `offset` it returns the two messages joined by ", ". -/
theorem populate_error_iff_witness :
    (∀ f ∈ schema, f.PkgPath = "") ∧
    (∃ now, PopulateFieldsFromTags sampleStrconv schema valueTag = .ok (now, none)) ∧
    (∃ now, PopulateFieldsFromTags sampleStrconv schema [("limit", "abc"), ("offset", "x")] =
      .ok (now, some (", ".intercalate
        ["failed to parse float value abc in tag limit: strconv.ParseInt: parsing \"abc\": invalid syntax",
         "failed to parse int value x in tag offset: strconv.ParseInt: parsing \"x\": invalid syntax"]))) := by
  have hExp : ∀ f ∈ schema, f.PkgPath = "" := by decide
  refine ⟨hExp, ?_, ?_⟩
  · obtain ⟨now, err, hPop, _, _, _, _, _, hNone⟩ :=
      populate_error_iff sampleStrconv valueTag schema hExp
    have hErr : err = none := hNone (by decide)
    exact ⟨now, hErr ▸ hPop⟩
  · obtain ⟨now, err, hPop, hIff, _, hMsg, _, _, _⟩ :=
      populate_error_iff sampleStrconv [("limit", "abc"), ("offset", "x")] schema hExp
    have hSome : err ≠ none := hIff.mpr (by decide)
    have hErr := hMsg hSome
    have hList : fieldMessages sampleStrconv [("limit", "abc"), ("offset", "x")] schema =
        ["failed to parse float value abc in tag limit: strconv.ParseInt: parsing \"abc\": invalid syntax",
         "failed to parse int value x in tag offset: strconv.ParseInt: parsing \"x\": invalid syntax"] :=
      rfl
    rw [hList] at hErr
    exact ⟨now, hErr ▸ hPop⟩

/-- C9 (failing input): the field `Limit int64` with the bundle `limit:"abc"`.
The message of `ReadIntTag` names the kind "float", where `ReadIntPtrTag` on the
field `Offset *int64` with `offset:"abc"` names the kind "int". -/
theorem readIntTag_message_names_float :
    PopulateFieldsFromTags sampleStrconv [⟨"Limit", "", .int64 0⟩] [("limit", "abc")] =
      .ok ([⟨"Limit", "", .int64 0⟩],
        some "failed to parse float value abc in tag limit: strconv.ParseInt: parsing \"abc\": invalid syntax") ∧
    PopulateFieldsFromTags sampleStrconv [⟨"Offset", "", .int64Ptr none⟩] [("offset", "abc")] =
      .ok ([⟨"Offset", "", .int64Ptr none⟩],
        some "failed to parse int value abc in tag offset: strconv.ParseInt: parsing \"abc\": invalid syntax") :=
  ⟨rfl, rfl⟩

/-- C10 (counterexample): in the destination `struct { title string }` the
derived key `title` is present with the raw value "Value"; `Interface()` panics on
the unexported field, and the field still holds "" and not "Value". -/
theorem populate_string_field_unexported :
    lookupDerived [("title", "Value")] "title" = some "Value" ∧
    PopulateFieldsFromTags sampleStrconv hiddenTitle [("title", "Value")] =
      .error "reflect.Value.Interface: cannot return value obtained from unexported field or method" ∧
    populateState sampleStrconv [("title", "Value")] hiddenTitle =
      [⟨"title", testPkg, .string ""⟩] :=
  ⟨rfl, rfl, rfl⟩

/-- C10 (as amended): in a destination struct whose fields are all exported, for
every string field whose derived key is present in the bundle with raw value
`r` and whose prior value is `d`: the field afterwards holds "" when `d` is
non-empty and `r` is exactly "-", and holds `r` in every other case; the
iteration of the loop for the field yields no error, and no string field ever
has a message. The derived key is the one the code derives: the name with its
first character in lower case when that character is ASCII, and no key of a
bundle otherwise. -/
theorem populate_string_field {F : Type} (sc : Strconv F) (fieldTag : StructTag)
    (dest : List (DestField F)) (i : Nat) (fld : DestField F) (d r : String)
    (hExp : ∀ f ∈ dest, f.PkgPath = "") (hi : dest[i]? = some fld)
    (hVal : fld.val = .string d)
    (hRaw : lookupDerived fieldTag fld.Name = some r) :
    ∃ now err, PopulateFieldsFromTags sc dest fieldTag = .ok (now, err) ∧
      now[i]? = some { fld with val := .string (if d ≠ "" ∧ r = "-" then "" else r) } ∧
      populateField sc fieldTag fld =
        .ok ({ fld with val := .string (if d ≠ "" ∧ r = "-" then "" else r) }, none) ∧
      (∀ (bundle : StructTag) (f : DestField F) (cur : String),
        f.val = .string cur → (readDerived sc bundle f).2 = none) := by
  obtain ⟨now, err, hPop, hNow, hField, _⟩ := populate_field_at sc fieldTag dest i fld hExp hi
  obtain ⟨key, hKey, hLook⟩ := lookupDerived_some fieldTag fld.Name r hRaw
  have hRead : readDerived sc fieldTag fld =
      ({ fld with val := .string (if d ≠ "" ∧ r = "-" then "" else r) }, none) := by
    rw [readDerived_of_key sc fieldTag fld key hKey]
    simp only [readField, hVal, ReadStringTag, hLook]
    by_cases h : d ≠ "" ∧ r = "-" <;> simp [h]
  refine ⟨now, err, hPop, ?_, ?_, ?_⟩
  · rw [hNow, hRead]
  · rw [hField, hRead]
  · intro bundle f cur hf
    cases hk : tagNameOf f.Name with
    | none => simp [readDerived, hk]
    | some k =>
      rw [readDerived_of_key sc bundle f k hk]
      simp only [readField, hf, ReadStringTag]
      cases bundle.Lookup k with
      | none => rfl
      | some value => by_cases h : cur ≠ "" ∧ value = "-" <;> simp [h]

/-- C10 (witness): an empty `Title string` receiving "-" ends up holding "-". -/
theorem populate_string_field_witness :
    (∀ f ∈ [(⟨"Title", "", .string ""⟩ : DestField Decimal)], f.PkgPath = "") ∧
    lookupDerived [("title", "-")] "Title" = some "-" ∧
    ∃ now err, PopulateFieldsFromTags sampleStrconv [⟨"Title", "", .string ""⟩]
        [("title", "-")] = .ok (now, err) ∧
      now[0]? = some ⟨"Title", "", .string "-"⟩ := by
  refine ⟨by simp, rfl, ?_⟩
  obtain ⟨now, err, hPop, hNow, _⟩ :=
    populate_string_field sampleStrconv [("title", "-")] [⟨"Title", "", .string ""⟩] 0
      ⟨"Title", "", .string ""⟩ "" "-" (by simp) rfl rfl rfl
  exact ⟨now, err, hPop, hNow⟩

/-- C11 (counterexample): in the destination `struct { desc *string }` the field
is nil and the derived key `desc` is present with the raw value "text";
`Interface()` panics on the unexported field, and the field is still nil. -/
theorem populate_string_pointer_field_unexported :
    lookupDerived [("desc", "text")] "desc" = some "text" ∧
    PopulateFieldsFromTags sampleStrconv hiddenDesc [("desc", "text")] =
      .error "reflect.Value.Interface: cannot return value obtained from unexported field or method" ∧
    populateState sampleStrconv [("desc", "text")] hiddenDesc =
      [⟨"desc", testPkg, .stringPtr none⟩] :=
  ⟨rfl, rfl, rfl⟩

/-- C11 (as amended): in a destination struct whose fields are all exported, for
every `*string` field whose derived key is present in the bundle with raw value
`r`: the field becomes nil when it pointed to a non-empty string and `r` is
exactly "-"; in every other case (it was nil, or pointed to the empty string,
or `r` is not "-") it points to `r` afterwards; the iteration yields no error.
The derived key is the one the code derives: the name with its first character
in lower case when that character is ASCII, and no key of a bundle otherwise. -/
theorem populate_string_pointer_field {F : Type} (sc : Strconv F) (fieldTag : StructTag)
    (dest : List (DestField F)) (i : Nat) (fld : DestField F) (p : Option String) (r : String)
    (hExp : ∀ f ∈ dest, f.PkgPath = "") (hi : dest[i]? = some fld)
    (hVal : fld.val = .stringPtr p)
    (hRaw : lookupDerived fieldTag fld.Name = some r) :
    ∃ now err, PopulateFieldsFromTags sc dest fieldTag = .ok (now, err) ∧
      now[i]? = some { fld with
        val := .stringPtr (if p ≠ none ∧ p ≠ some "" ∧ r = "-" then none else some r) } ∧
      populateField sc fieldTag fld = .ok ({ fld with
        val := .stringPtr (if p ≠ none ∧ p ≠ some "" ∧ r = "-" then none else some r) }, none) := by
  obtain ⟨now, err, hPop, hNow, hField, _⟩ := populate_field_at sc fieldTag dest i fld hExp hi
  obtain ⟨key, hKey, hLook⟩ := lookupDerived_some fieldTag fld.Name r hRaw
  have hRead : readDerived sc fieldTag fld =
      ({ fld with
        val := .stringPtr (if p ≠ none ∧ p ≠ some "" ∧ r = "-" then none else some r) }, none) := by
    rw [readDerived_of_key sc fieldTag fld key hKey]
    simp only [readField, hVal, ReadStringPtrTag, hLook]
    cases p with
    | none => simp
    | some cur => by_cases h : cur ≠ "" ∧ r = "-" <;> simp [h]
  exact ⟨now, err, hPop, by rw [hNow, hRead], by rw [hField, hRead]⟩

/-- C11 (witness): `Desc *string` pointing to "old" and receiving "-" becomes nil. -/
theorem populate_string_pointer_field_witness :
    (∀ f ∈ [(⟨"Desc", "", .stringPtr (some "old")⟩ : DestField Decimal)], f.PkgPath = "") ∧
    lookupDerived [("desc", "-")] "Desc" = some "-" ∧
    ∃ now err, PopulateFieldsFromTags sampleStrconv [⟨"Desc", "", .stringPtr (some "old")⟩]
        [("desc", "-")] = .ok (now, err) ∧
      now[0]? = some ⟨"Desc", "", .stringPtr none⟩ := by
  refine ⟨by simp, rfl, ?_⟩
  obtain ⟨now, err, hPop, hNow, _⟩ :=
    populate_string_pointer_field sampleStrconv [("desc", "-")]
      [⟨"Desc", "", .stringPtr (some "old")⟩] 0 ⟨"Desc", "", .stringPtr (some "old")⟩
      (some "old") "-" (by simp) rfl rfl rfl
  exact ⟨now, err, hPop, hNow⟩

/-- C12: for every destination struct and every bundle that carries no "-" value
for the derived key of a string or `*string` field, a second call of
`PopulateFieldsFromTags` with the same bundle, on the destination as the first
call left it, has the outcome of the first call (the same returned fields and
the same error, or the same panic) and leaves the destination as the first
call left it, a pointer field being compared by nil or the value pointed to.
When the first call returns, the fields it returns are the destination it
left. -/
theorem populate_idempotent {F : Type} (sc : Strconv F) (fieldTag : StructTag)
    (dest : List (DestField F))
    (hNoDash : ∀ f ∈ dest, ((∃ cur, f.val = .string cur) ∨ (∃ p, f.val = .stringPtr p)) →
      lookupDerived fieldTag f.Name ≠ some "-") :
    PopulateFieldsFromTags sc (populateState sc fieldTag dest) fieldTag =
      PopulateFieldsFromTags sc dest fieldTag ∧
    populateState sc fieldTag (populateState sc fieldTag dest) = populateState sc fieldTag dest ∧
    (∀ now err, PopulateFieldsFromTags sc dest fieldTag = .ok (now, err) →
      populateState sc fieldTag dest = now) :=
  ⟨populate_state_again sc fieldTag dest hNoDash, populateState_idem sc fieldTag dest hNoDash,
    fun now err h => populateState_of_ok sc fieldTag dest now err h⟩

/-- C12 (witness): the test type `schema` with the bundle of the test and a
malformed `limit`: the first call returns an error, and the second call on the
fields it left returns the same fields and the same error. For `struct { Title
string; cache map[string]int }` the first call writes `Title` and panics, and
so does the second call on what the first left. -/
theorem populate_idempotent_witness :
    (∀ f ∈ schema, ((∃ cur, f.val = .string cur) ∨ (∃ p, f.val = .stringPtr p)) →
      lookupDerived (("limit", "abc") :: valueTag) f.Name ≠ some "-") ∧
    (∃ now err, PopulateFieldsFromTags sampleStrconv schema (("limit", "abc") :: valueTag) =
        .ok (now, err) ∧
      PopulateFieldsFromTags sampleStrconv now (("limit", "abc") :: valueTag) = .ok (now, err) ∧
      err = some "failed to parse float value abc in tag limit: strconv.ParseInt: parsing \"abc\": invalid syntax") ∧
    populateState sampleStrconv [("title", "Value")] cachedSchema =
      [⟨"Title", "", .string "Value"⟩, ⟨"cache", "github.com/swaggest/refl_test", .other⟩] ∧
    PopulateFieldsFromTags sampleStrconv
      [⟨"Title", "", .string "Value"⟩, ⟨"cache", "github.com/swaggest/refl_test", .other⟩]
      [("title", "Value")] =
      PopulateFieldsFromTags sampleStrconv cachedSchema [("title", "Value")] := by
  have hNoDash : ∀ f ∈ schema, ((∃ cur, f.val = .string cur) ∨ (∃ p, f.val = .stringPtr p)) →
      lookupDerived (("limit", "abc") :: valueTag) f.Name ≠ some "-" := by
    have hAll : ∀ f ∈ schema,
        lookupDerived (("limit", "abc") :: valueTag) f.Name ≠ some "-" := by
      decide
    intro f hf _
    exact hAll f hf
  have hNoDash2 : ∀ f ∈ cachedSchema,
      ((∃ cur, f.val = .string cur) ∨ (∃ p, f.val = .stringPtr p)) →
      lookupDerived [("title", "Value")] f.Name ≠ some "-" := by
    have hAll : ∀ f ∈ cachedSchema, lookupDerived [("title", "Value")] f.Name ≠ some "-" := by
      decide
    intro f hf _
    exact hAll f hf
  refine ⟨hNoDash, ?_, rfl, ?_⟩
  · obtain ⟨hAgain, _, _⟩ :=
      populate_idempotent sampleStrconv (("limit", "abc") :: valueTag) schema hNoDash
    have hFirst : PopulateFieldsFromTags sampleStrconv schema (("limit", "abc") :: valueTag) =
        .ok (populateState sampleStrconv (("limit", "abc") :: valueTag) schema,
          some "failed to parse float value abc in tag limit: strconv.ParseInt: parsing \"abc\": invalid syntax") :=
      rfl
    exact ⟨_, _, hFirst, hAgain.trans hFirst, rfl⟩
  · exact (populate_idempotent sampleStrconv [("title", "Value")] cachedSchema hNoDash2).1

/-- C16 (counterexample): in the destination `struct { offset *int64 }` the
derived key `offset` is absent from the empty bundle, and the call does not
pass over the field without a report: it panics in `Interface()` on that field,
where the same call on a struct without the field returns no error. -/
theorem populate_absent_key_unexported :
    hiddenOffset = [⟨"offset", testPkg, .int64Ptr none⟩] ∧
    lookupDerived [] "offset" = none ∧
    PopulateFieldsFromTags sampleStrconv hiddenOffset [] =
      .error "reflect.Value.Interface: cannot return value obtained from unexported field or method" ∧
    PopulateFieldsFromTags sampleStrconv ([] : List (DestField Decimal)) [] = .ok ([], none) :=
  ⟨rfl, rfl, rfl, rfl⟩

/-- C16 (as amended): in a destination struct whose fields are all exported,
`PopulateFieldsFromTags` returns; a field whose derived key is absent from the
bundle is afterwards exactly what it was, and its iteration yields no error; a
field whose content differs afterwards, such as a nil pointer field that became
non-nil, has its derived key in the bundle. The derived key of a name that
starts with an ASCII character is the name with that character in lower case;
a name that starts with another character derives no key of a bundle, so its
key is always absent. -/
theorem populate_absent_key {F : Type} (sc : Strconv F) (fieldTag : StructTag)
    (dest : List (DestField F)) (i : Nat) (fld : DestField F)
    (hExp : ∀ f ∈ dest, f.PkgPath = "") (hi : dest[i]? = some fld) :
    ∃ now err, PopulateFieldsFromTags sc dest fieldTag = .ok (now, err) ∧
      (lookupDerived fieldTag fld.Name = none →
        now[i]? = some fld ∧ populateField sc fieldTag fld = .ok (fld, none) ∧
        failsToParse sc fieldTag fld = false) ∧
      (∀ g, now[i]? = some g → g.val ≠ fld.val →
        lookupDerived fieldTag fld.Name ≠ none) ∧
      (∀ (c : Char) (cs : List Char), fld.Name = String.mk (c :: cs) →
        (c.toNat < 128 →
          lookupDerived fieldTag fld.Name = fieldTag.Lookup (String.mk (c.toLower :: cs))) ∧
        (¬ c.toNat < 128 → lookupDerived fieldTag fld.Name = none)) := by
  obtain ⟨now, err, hPop, hNow, hField, _⟩ := populate_field_at sc fieldTag dest i fld hExp hi
  refine ⟨now, err, hPop, ?_, ?_, ?_⟩
  · intro hAbs
    have hRead := readDerived_absent sc fieldTag fld hAbs
    refine ⟨by rw [hNow, hRead], by rw [hField, hRead], ?_⟩
    simp [failsToParse, hAbs]
  · intro g hg hne hAbs
    have hRead := readDerived_absent sc fieldTag fld hAbs
    rw [hNow, hRead] at hg
    simp only [Option.some.injEq] at hg
    exact hne (by rw [hg])
  · intro c cs hName
    rw [hName]
    constructor
    · intro hc
      exact lookupDerived_of_key fieldTag _ _ (tagNameOf_ascii c cs hc)
    · intro hc
      exact lookupDerived_of_no_key fieldTag _ (tagNameOf_not_ascii c cs hc)

/-- C16 (witness): `Offset *int64` is nil in `schema`; with a bundle that has no
key `offset` it is still nil afterwards. -/
theorem populate_absent_key_witness :
    (∀ f ∈ schema, f.PkgPath = "") ∧
    schema[5]? = some ⟨"Offset", "", .int64Ptr none⟩ ∧
    lookupDerived [("limit", "5")] "Offset" = none ∧
    tagNameOf "Offset" = some "offset" ∧
    ∃ now err, PopulateFieldsFromTags sampleStrconv schema [("limit", "5")] = .ok (now, err) ∧
      now[5]? = some ⟨"Offset", "", .int64Ptr none⟩ := by
  have hExp : ∀ f ∈ schema, f.PkgPath = "" := by decide
  refine ⟨hExp, rfl, rfl, rfl, ?_⟩
  obtain ⟨now, err, hPop, hAbs, _⟩ :=
    populate_absent_key sampleStrconv [("limit", "5")] schema 5
      ⟨"Offset", "", .int64Ptr none⟩ hExp rfl
  exact ⟨now, err, hPop, (hAbs rfl).1⟩

/-- C17 (counterexample): the destination `struct { Title string; cache
map[string]int }` has a field of a kind outside the eight parse targets, and
`PopulateFieldsFromTags` fails because of it: `Interface()` panics on the
unexported field. -/
theorem populate_panics_on_unexported :
    cachedSchema = [⟨"Title", "", .string ""⟩, ⟨"cache", "github.com/swaggest/refl_test", .other⟩] ∧
    PopulateFieldsFromTags sampleStrconv cachedSchema [("title", "Value")] =
      .error "reflect.Value.Interface: cannot return value obtained from unexported field or method" :=
  ⟨rfl, rfl⟩

/-- C17 (as amended): in a destination struct whose fields are all exported, a
field whose type is outside the eight parse targets is left unchanged and
contributes no error, whether or not the bundle contains its derived key:
`PopulateFieldsFromTags` returns, with the field as it was, the other fields
and the error being those of the same call on the struct without the field.
A struct with an unexported field, of any kind, makes the call panic. -/
theorem populate_other_field {F : Type} (sc : Strconv F) (fieldTag : StructTag)
    (pre post : List (DestField F)) (fld : DestField F)
    (hExp : ∀ f ∈ pre ++ fld :: post, f.PkgPath = "") (hVal : fld.val = .other) :
    (∃ nowPre nowPost err,
      PopulateFieldsFromTags sc (pre ++ fld :: post) fieldTag =
        .ok (nowPre ++ fld :: nowPost, err) ∧
      nowPre.length = pre.length ∧
      PopulateFieldsFromTags sc (pre ++ post) fieldTag = .ok (nowPre ++ nowPost, err)) ∧
    populateField sc fieldTag fld = .ok (fld, none) ∧
    (∀ (dest : List (DestField F)), (∃ f ∈ dest, f.PkgPath ≠ "") →
      PopulateFieldsFromTags sc dest fieldTag =
        .error "reflect.Value.Interface: cannot return value obtained from unexported field or method") := by
  have hRead : readDerived sc fieldTag fld = (fld, none) := by
    cases hk : tagNameOf fld.Name with
    | none => simp [readDerived, hk]
    | some key => simp [readDerived, hk, readField, hVal]
  have hfld : fld.PkgPath = "" := hExp fld (by simp)
  refine ⟨populate_split sc fieldTag pre post fld hExp hRead, ?_, ?_⟩
  · simp [populateField, hfld, hRead]
  · intro dest h
    exact populate_unexported sc fieldTag dest h

/-- C17 (witness): an exported field `Tags []string` between `Title` and `Limit`
is left as it was, with and without a key `tags` in the bundle. -/
theorem populate_other_field_witness :
    (∀ f ∈ [(⟨"Title", "", .string ""⟩ : DestField Decimal)] ++
      ⟨"Tags", "", .other⟩ :: [⟨"Limit", "", .int64 0⟩], f.PkgPath = "") ∧
    PopulateFieldsFromTags sampleStrconv
      ([⟨"Title", "", .string ""⟩] ++ ⟨"Tags", "", .other⟩ :: [⟨"Limit", "", .int64 0⟩])
      [("title", "Value"), ("tags", "a,b"), ("limit", "5")] =
      .ok ([⟨"Title", "", .string "Value"⟩, ⟨"Tags", "", .other⟩, ⟨"Limit", "", .int64 5⟩], none) ∧
    populateField sampleStrconv [("title", "Value"), ("tags", "a,b"), ("limit", "5")]
      ⟨"Tags", "", .other⟩ = .ok (⟨"Tags", "", .other⟩, none) :=
  ⟨by decide, rfl,
    (populate_other_field sampleStrconv [("title", "Value"), ("tags", "a,b"), ("limit", "5")]
      [⟨"Title", "", .string ""⟩] [⟨"Limit", "", .int64 0⟩] ⟨"Tags", "", .other⟩
      (by decide) rfl).2.1⟩

/-- C19 (counterexample): the field `Title string` with the bundle
`title:"Value"` ends as "Value" when it is the only field, and stays "" in
`struct { cache map[string]int; Title string }`, where the call panics at the
unexported field before it reaches `Title`: its final value depends on another
field. -/
theorem populate_field_depends_on_sibling :
    PopulateFieldsFromTags sampleStrconv [⟨"Title", "", .string ""⟩] [("title", "Value")] =
      .ok ([⟨"Title", "", .string "Value"⟩], none) ∧
    PopulateFieldsFromTags sampleStrconv cacheThenTitle [("title", "Value")] =
      .error "reflect.Value.Interface: cannot return value obtained from unexported field or method" ∧
    populateState sampleStrconv [("title", "Value")] cacheThenTitle =
      [⟨"cache", testPkg, .other⟩, ⟨"Title", "", .string ""⟩] :=
  ⟨rfl, rfl, rfl⟩

/-- C19 (as amended): for two destination structs whose fields are all exported
and two bundles, a field that both structs hold with the same kind and prior
value, and whose own derived key has the same raw value (or is absent) in both
bundles, ends with the same value in both calls, whatever the other fields and
the other keys are and whether or not another field fails to parse; that
value is the one the type switch gives for the field alone. -/
theorem populate_field_independent {F : Type} (sc : Strconv F) (tag1 tag2 : StructTag)
    (dest1 dest2 : List (DestField F)) (i j : Nat) (fld : DestField F)
    (hExp1 : ∀ f ∈ dest1, f.PkgPath = "") (hExp2 : ∀ f ∈ dest2, f.PkgPath = "")
    (h1 : dest1[i]? = some fld) (h2 : dest2[j]? = some fld)
    (hKey : lookupDerived tag1 fld.Name = lookupDerived tag2 fld.Name) :
    ∃ now1 err1 now2 err2,
      PopulateFieldsFromTags sc dest1 tag1 = .ok (now1, err1) ∧
      PopulateFieldsFromTags sc dest2 tag2 = .ok (now2, err2) ∧
      now1[i]? = now2[j]? ∧
      now1[i]? = some (readDerived sc tag1 fld).1 := by
  obtain ⟨now1, err1, hPop1, hNow1, _, _⟩ := populate_field_at sc tag1 dest1 i fld hExp1 h1
  obtain ⟨now2, err2, hPop2, hNow2, _, _⟩ := populate_field_at sc tag2 dest2 j fld hExp2 h2
  refine ⟨now1, err1, now2, err2, hPop1, hPop2, ?_, hNow1⟩
  rw [hNow1, hNow2, readDerived_lookup_congr sc tag1 tag2 fld hKey]

/-- C19 (witness): `Title` ends as "Value" next to a `Limit` that fails to parse
and alone. -/
theorem populate_field_independent_witness :
    (∀ f ∈ [(⟨"Limit", "", .int64 0⟩ : DestField Decimal), ⟨"Title", "", .string ""⟩],
      f.PkgPath = "") ∧
    (∀ f ∈ [(⟨"Title", "", .string ""⟩ : DestField Decimal)], f.PkgPath = "") ∧
    PopulateFieldsFromTags sampleStrconv [⟨"Limit", "", .int64 0⟩, ⟨"Title", "", .string ""⟩]
      [("limit", "abc"), ("title", "Value")] =
      .ok ([⟨"Limit", "", .int64 0⟩, ⟨"Title", "", .string "Value"⟩],
        some "failed to parse float value abc in tag limit: strconv.ParseInt: parsing \"abc\": invalid syntax") ∧
    ∃ now1 err1 now2 err2,
      PopulateFieldsFromTags sampleStrconv [⟨"Limit", "", .int64 0⟩, ⟨"Title", "", .string ""⟩]
        [("limit", "abc"), ("title", "Value")] = .ok (now1, err1) ∧
      PopulateFieldsFromTags sampleStrconv [⟨"Title", "", .string ""⟩]
        [("title", "Value")] = .ok (now2, err2) ∧
      now1[1]? = now2[0]? := by
  refine ⟨by decide, by decide, rfl, ?_⟩
  obtain ⟨now1, err1, now2, err2, hp1, hp2, hEq, _⟩ :=
    populate_field_independent sampleStrconv [("limit", "abc"), ("title", "Value")]
      [("title", "Value")] [⟨"Limit", "", .int64 0⟩, ⟨"Title", "", .string ""⟩]
      [⟨"Title", "", .string ""⟩] 1 0 ⟨"Title", "", .string ""⟩ (by decide) (by decide)
      rfl rfl rfl
  exact ⟨now1, err1, now2, err2, hp1, hp2, hEq⟩

/-! ## The walk over a field list in pieces -/

theorem walkFields_append {σ : Type} (f : WalkTaggedFieldFn σ) (tagName : String)
    (post : Fields) (base : Option Nat) :
    ∀ (pre : Fields) (s : σ),
      walkFields f tagName (pre.append post) base s =
        match walkFields f tagName pre base s with
        | .error e => .error e
        | .ok s1 => walkFields f tagName post base s1
  | .nil, s => by simp [Fields.append, walkFields]
  | .cons sf val rest, s => by
    have ih := walkFields_append f tagName post base rest
    simp only [Fields.append, walkFields]
    by_cases hAnon : sf.Anonymous = true
    · by_cases hTag : primaryTag (sf.Tag.Get tagName) = "-"
      · simp [hAnon, hTag, ih]
      · cases base with
        | none => simp [hAnon, hTag]
        | some b =>
          simp only [hAnon, hTag, ne_eq, not_false_eq_true, if_true]
          cases walkObj f tagName val (some (b + sf.Offset)) s with
          | error e => rfl
          | ok s1 => exact walkFields_append f tagName post (some b) rest s1
    · by_cases hSkip : primaryTag (sf.Tag.Get tagName) = "" ∨ primaryTag (sf.Tag.Get tagName) = "-"
      · simp [hAnon, hSkip, ih]
      · simp only [hAnon, hSkip, if_false, Bool.false_eq_true]
        cases f (Value.mk val (Option.map (fun b => b + sf.Offset) base)) sf
            (primaryTag (sf.Tag.Get tagName)) s with
        | error e => rfl
        | ok s1 => exact ih s1

theorem walkableFields_append (tagName : String) (post : Fields) (canAddr : Bool) :
    ∀ (pre : Fields),
      walkableFields tagName (pre.append post) canAddr =
        (walkableFields tagName pre canAddr && walkableFields tagName post canAddr)
  | .nil => by simp [Fields.append, walkableFields]
  | .cons sf val rest => by
    simp only [Fields.append, walkableFields, walkableFields_append tagName post canAddr rest,
      Bool.and_assoc]

mutual
theorem walkableObj_mono (tagName : String) :
    ∀ (obj : Obj), walkableObj tagName obj false = true → walkableObj tagName obj true = true
  | .leaf _, _ => by simp [walkableObj]
  | .nilPtr _, h => by simpa [walkableObj] using h
  | .ptr _ _, h => by simpa [walkableObj] using h
  | .struct fields, h => by
    simp only [walkableObj] at h ⊢
    exact walkableFields_mono tagName fields h
theorem walkableFields_mono (tagName : String) :
    ∀ (fields : Fields), walkableFields tagName fields false = true →
      walkableFields tagName fields true = true
  | .nil, _ => by simp [walkableFields]
  | .cons sf val rest, h => by
    simp only [walkableFields, Bool.and_eq_true] at h ⊢
    refine ⟨?_, walkableFields_mono tagName rest h.2⟩
    have h1 := h.1
    split at h1
    · simp at h1
    · rename_i hno
      simp [hno]
end

theorem hasTaggedFields_pointer (tagName : String) (obj : Obj) (a : Nat)
    (h : walkableObj tagName obj true = true) :
    HasTaggedFields (some (.ptr a obj)) tagName = .ok (!(flattenObj tagName obj).isEmpty) := by
  have h2 := hasTaggedFields_of_walkable tagName (.ptr a obj) (by simpa [walkableObj] using h)
  simpa [flattenObj] using h2

theorem hasTaggedFields_by_value_eq (tagName : String) (obj : Obj) (a : Nat)
    (h : walkableObj tagName obj false = true) :
    HasTaggedFields (some obj) tagName = HasTaggedFields (some (.ptr a obj)) tagName := by
  rw [hasTaggedFields_of_walkable tagName obj h,
    hasTaggedFields_pointer tagName obj a (walkableObj_mono tagName obj h)]

/-! ## Further claims on the field walker -/

/-- C13: for every record, key and visitor, when an embedded field of the record
has the primary tag "-" under the key, the walk of the record is the walk of
the record without that field: nothing of the embedded sub-record is passed to
the visitor, whatever it holds, and the fields before and after it are walked
as they are without it. The same holds through a pointer to the record. -/
theorem walk_skips_ignored_embedded {σ : Type} (f : WalkTaggedFieldFn σ) (tagName : String)
    (pre post : Fields) (sf : StructField) (val : Obj) (s : σ)
    (hAnon : sf.Anonymous = true) (hTag : primaryTag (sf.Tag.Get tagName) = "-") :
    (∀ addr : Option Nat,
      WalkTaggedFields (.mk (.struct (pre.append (.cons sf val post))) addr) f tagName s =
        WalkTaggedFields (.mk (.struct (pre.append post)) addr) f tagName s) ∧
    (∀ (a : Nat) (addr : Option Nat),
      WalkTaggedFields (.mk (.ptr a (.struct (pre.append (.cons sf val post)))) addr) f tagName s =
        WalkTaggedFields (.mk (.ptr a (.struct (pre.append post))) addr) f tagName s) := by
  have hStep : ∀ (base : Option Nat) (s1 : σ),
      walkFields f tagName (.cons sf val post) base s1 = walkFields f tagName post base s1 := by
    intro base s1
    simp [walkFields, hAnon, hTag]
  have hAll : ∀ base : Option Nat,
      walkFields f tagName (pre.append (.cons sf val post)) base s =
        walkFields f tagName (pre.append post) base s := by
    intro base
    rw [walkFields_append, walkFields_append]
    cases walkFields f tagName pre base s with
    | error e => rfl
    | ok s1 => exact hStep base s1
  constructor
  · intro addr
    simp only [WalkTaggedFields, walkObj]
    exact hAll addr
  · intro a addr
    simp only [WalkTaggedFields, walkObj]
    exact hAll (some a)

/-- C13 (witness): in `structWithIgnoredEmbedded` the embedded field is tagged
`json:"-"`, and the walk under `json` is the walk of `struct { B int }`, which
passes nothing, although `A` is tagged `json:"a"`. -/
theorem walk_skips_ignored_embedded_witness :
    (fieldEmbedded [("json", "-")]).Anonymous = true ∧
    primaryTag ((fieldEmbedded [("json", "-")]).Tag.Get "json") = "-" ∧
    WalkTaggedFields (.mk structWithIgnoredEmbedded (some 4096)) recordPairs "json" [] =
      WalkTaggedFields (.mk (.struct (.cons fieldB (.leaf .Int) .nil)) (some 4096))
        recordPairs "json" [] ∧
    WalkTaggedFields (.mk structWithIgnoredEmbedded (some 4096)) recordPairs "json" [] = .ok [] :=
  ⟨rfl, rfl,
    (walk_skips_ignored_embedded recordPairs "json" (.cons fieldB (.leaf .Int) .nil) .nil
      (fieldEmbedded [("json", "-")]) embedded [] rfl rfl).1 (some 4096),
    rfl⟩

/-- C14 (failing input): `HasTaggedFields((*structWithEmbedded)(nil), "json")`. The
loop over the pointer types leaves the zero Value with the struct type, and
`v.Field(0)` panics; a nil pointer to a pointer panics in `v.Elem()`. The
walk is a no-op for the zero Value, for a value that is neither a pointer nor a
struct, directly or behind a pointer, and for a nil pointer to such a type or
to a struct without fields. -/
theorem hasTaggedFields_nil_pointer_panics :
    HasTaggedFields (some (.nilPtr structWithEmbeddedType)) "json" =
      .error "reflect: call of reflect.Value.Field on zero Value" ∧
    HasTaggedFields (some (.nilPtr (.ptr structWithEmbeddedType))) "json" =
      .error "reflect: call of reflect.Value.Elem on zero Value" ∧
    HasTaggedFields none "json" = .ok false ∧
    (∀ (σ : Type) (f : WalkTaggedFieldFn σ) (key : String) (s : σ),
      WalkTaggedFields .zero f key s = .ok s) ∧
    (∀ (σ : Type) (f : WalkTaggedFieldFn σ) (key : String) (s : σ) (k : LeafKind)
      (addr : Option Nat) (a : Nat),
      WalkTaggedFields (.mk (.leaf k) addr) f key s = .ok s ∧
      WalkTaggedFields (.mk (.ptr a (.leaf k)) addr) f key s = .ok s ∧
      WalkTaggedFields (.mk (.nilPtr (.leaf k)) addr) f key s = .ok s ∧
      WalkTaggedFields (.mk (.nilPtr (.struct [])) addr) f key s = .ok s) := by
  refine ⟨rfl, rfl, rfl, ?_, ?_⟩
  · intro σ f key s
    rfl
  · intro σ f key s k addr a
    exact ⟨rfl, rfl, rfl, rfl⟩

/-- C15 (failing input): `mixedStruct{}` passed by value, as in the first
assertion of `TestHasTaggedFields`. The walk panics in `fieldVal.Addr()` at the
embedded field before it passes any field, while the walk of the same record
through a pointer passes `AnonProp` and `FieldBody`; `HasTaggedFields` differs
accordingly. -/
theorem walk_by_value_panics :
    WalkTaggedFields (ValueOf (some mixedStruct)) recordPairs "json" [] =
      .error "reflect.Value.Addr of unaddressable value" ∧
    WalkTaggedFields (ValueOf (some (.ptr 4096 mixedStruct))) recordPairs "json" [] =
      .ok [(⟨"AnonProp", "", [("json", "anonProp")], 0, false⟩, "anonProp"),
           (⟨"FieldBody", "", [("json", "fieldBody")], 16, false⟩, "fieldBody")] ∧
    HasTaggedFields (some mixedStruct) "json" ≠
      HasTaggedFields (some (.ptr 4096 mixedStruct)) "json" := by
  refine ⟨rfl, rfl, ?_⟩
  decide

/-- C18 (counterexample): in `struct { Name string; Note string }` tagged
`json:",omitempty"` and `json:"-,omitempty"` the raw values under `json` are
neither empty nor "-", yet the walk passes neither field. -/
theorem walk_skips_fields_with_options :
    fieldName.Tag.Get "json" = ",omitempty" ∧ fieldNote.Tag.Get "json" = "-,omitempty" ∧
    fieldName.Anonymous = false ∧ fieldNote.Anonymous = false ∧
    WalkTaggedFields (.mk optionsRecord (some 4096)) recordVisits "json" [] = .ok [] :=
  ⟨rfl, rfl, rfl, rfl, rfl⟩

/-- C18 (as amended): for every record, key and visitor, and every field `F` of
the record that is not embedded and that the walk reaches (the walk of the
fields declared before `F` completes, having passed the visits `before`): after
the visitor has run over `before`, the walk passes `F` to the visitor if and
only if the primary tag of `F`, the text of its raw value before the first
comma, is neither empty nor "-", and it then goes on with the fields declared
after `F`. A walk through a pointer to a record is the walk of the record at
the address pointed to. -/
theorem walk_passes_field_iff_primary {σ : Type} (f : WalkTaggedFieldFn σ) (tagName : String)
    (pre post : Fields) (sf : StructField) (val : Obj) (base : Option Nat)
    (before : List Visit) (s : σ) (hAnon : sf.Anonymous = false)
    (hReach : WalkTaggedFields (.mk (.struct pre) base) recordVisits tagName [] = .ok before) :
    WalkTaggedFields (.mk (.struct (pre.append (.cons sf val post))) base) f tagName s =
      (match runVisits f before s with
      | .error e => .error e
      | .ok s1 =>
        if primaryTag (sf.Tag.Get tagName) ≠ "" ∧ primaryTag (sf.Tag.Get tagName) ≠ "-" then
          match f (.mk val (base.map (fun b => b + sf.Offset))) sf
            (primaryTag (sf.Tag.Get tagName)) s1 with
          | .error e => .error e
          | .ok s2 => WalkTaggedFields (.mk (.struct post) base) f tagName s2
        else WalkTaggedFields (.mk (.struct post) base) f tagName s1) ∧
    (∀ (fields : Fields) (a : Nat) (addr : Option Nat),
      WalkTaggedFields (.mk (.ptr a (.struct fields)) addr) f tagName s =
        WalkTaggedFields (.mk (.struct fields) (some a)) f tagName s) := by
  obtain ⟨hPre, hBefore⟩ := visits_of_walk_ok tagName (.struct pre) base before hReach
  simp only [walkableObj] at hPre
  simp only [visitsObj] at hBefore
  refine ⟨?_, fun fields a addr => rfl⟩
  simp only [WalkTaggedFields, walkObj]
  rw [walkFields_append, walkFields_eq_runVisits f tagName pre base s hPre, ← hBefore]
  cases runVisits f before s with
  | error e => rfl
  | ok s1 =>
    simp only [walkFields, hAnon, Bool.false_eq_true, if_false]
    by_cases hSkip : primaryTag (sf.Tag.Get tagName) = "" ∨ primaryTag (sf.Tag.Get tagName) = "-"
    · have hNot : ¬(primaryTag (sf.Tag.Get tagName) ≠ "" ∧
          primaryTag (sf.Tag.Get tagName) ≠ "-") := by
        intro h
        rcases hSkip with h1 | h1
        · exact h.1 h1
        · exact h.2 h1
      simp [hSkip, hNot]
    · have hYes : primaryTag (sf.Tag.Get tagName) ≠ "" ∧
          primaryTag (sf.Tag.Get tagName) ≠ "-" := not_or.mp hSkip
      simp [hSkip, hYes]

/-- C18 (witness): the record `struct { B int; embedded }` passed by value under
the key `path`: `B` is reached, its primary tag is "b", and the walk passes it
to the visitor and then panics at the embedded field declared after it. -/
theorem walk_passes_field_iff_primary_witness :
    fieldB.Anonymous = false ∧
    WalkTaggedFields (.mk (.struct .nil) none) recordVisits "path" [] = .ok [] ∧
    primaryTag (fieldB.Tag.Get "path") = "b" ∧
    WalkTaggedFields (.mk structWithEmbedded none) recordVisits "path" [] =
      (match recordVisits (.mk (.leaf .Int) none) fieldB "b" [] with
      | .error e => .error e
      | .ok s2 =>
        WalkTaggedFields (.mk (.struct (.cons (fieldEmbedded []) embedded .nil)) none)
          recordVisits "path" s2) ∧
    WalkTaggedFields (.mk (.struct (.cons (fieldEmbedded []) embedded .nil)) none)
      recordVisits "path" [(.mk (.leaf .Int) none, fieldB, "b")] =
      .error "reflect.Value.Addr of unaddressable value" :=
  ⟨rfl, rfl, rfl,
    (walk_passes_field_iff_primary recordVisits "path" .nil
      (.cons (fieldEmbedded []) embedded .nil) fieldB (.leaf .Int) none [] [] rfl rfl).1,
    rfl⟩

end Refl
